import Mathlib

/-!
Verification development for the moxie-buildings extraction-and-normalization
pipeline.  Python source functions are shallowly embedded as executable Lean
definitions; strings are modelled as lists of characters (type Str below) so
that every definition reduces inside the kernel.  Machine integers do not
occur: Python ints are unbounded, matching Nat / Int.  Fallible Python code
(functions that can raise) is embedded with Except; a returned Except.error
models an exception propagating out of the function, in which case no
database commit happens.
-/

namespace Moxie

/-- Python strings, modelled as lists of unicode characters. -/
abbrev Str := List Char

/-- ASCII whitespace test, modelling the characters str.strip removes.
(Python also strips some exotic unicode whitespace; the inputs treated here
are ASCII.) -/
def isSpaceC (c : Char) : Bool :=
  c == ' ' || c == '\t' || c == '\n' || c == '\r' || c.toNat == 11 || c.toNat == 12

/-- ASCII decimal digit test. -/
def isDigitC (c : Char) : Bool :=
  48 ≤ c.toNat && c.toNat ≤ 57

/-- ASCII letter test. -/
def isAlphaC (c : Char) : Bool :=
  (65 ≤ c.toNat && c.toNat ≤ 90) || (97 ≤ c.toNat && c.toNat ≤ 122)

/-- ASCII lowercasing of one character, modelling str.lower on the ASCII
range (the inputs treated here are ASCII). -/
def charLower (c : Char) : Char :=
  if 65 ≤ c.toNat ∧ c.toNat ≤ 90 then Char.ofNat (c.toNat + 32) else c

/-- str.lower. -/
def lowerS (s : Str) : Str := s.map charLower

/-- str.startswith. -/
def startsWithS : Str → Str → Bool
  | _, [] => true
  | [], _ :: _ => false
  | c :: s, p :: pr => c == p && startsWithS s pr

/-- The Python substring test (pat in s). -/
def containsS : Str → Str → Bool
  | [], pat => pat.isEmpty
  | c :: s, pat => startsWithS (c :: s) pat || containsS s pat

/-- str.strip: drop whitespace from both ends. -/
def stripS (s : Str) : Str :=
  ((s.dropWhile isSpaceC).reverse.dropWhile isSpaceC).reverse

/-- Worker for replaceS.  The Nat argument counts characters still to skip
after a replacement was made (matched text is neither emitted nor rescanned,
matching the non-overlapping left-to-right semantics of str.replace). -/
def replaceGo (pat rep : Str) : Str → Nat → Str
  | [], _ => []
  | c :: s, 0 =>
    if startsWithS (c :: s) pat && !pat.isEmpty then
      rep ++ replaceGo pat rep s (pat.length - 1)
    else
      c :: replaceGo pat rep s 0
  | _ :: s, k + 1 => replaceGo pat rep s k

/-- str.replace(pat, rep): replace every non-overlapping occurrence,
scanning left to right. -/
def replaceS (s pat rep : Str) : Str := replaceGo pat rep s 0

/-- The first component of str.split(pat): the characters before the first
occurrence of pat.  Only meaningful when pat occurs in s and is nonempty,
which is how the source uses it. -/
def takeBeforeS : Str → Str → Str
  | [], _ => []
  | c :: s, pat => if startsWithS (c :: s) pat then [] else c :: takeBeforeS s pat

/-- str.rstrip applied with the slash character. -/
def rstripSlash (s : Str) : Str :=
  (s.reverse.dropWhile (fun c => c == '/')).reverse

/-!
## Normalizer (src/moxie/normalizer.py)
-/

/-- CANONICAL_BED_TYPES from normalizer.py (a frozenset; order is
irrelevant, only membership is used). -/
def CANONICAL_BED_TYPES : List Str :=
  (["Studio", "Convertible", "1BR", "1BR+Den", "2BR", "3BR+"]).map String.toList

/-- BED_TYPE_ALIASES from normalizer.py: lowercased + stripped raw values
mapped to canonical bed type strings.  Transcribed entry for entry. -/
def BED_TYPE_ALIASES : List (Str × Str) :=
  ([
    ("0", "Studio"),
    ("0br", "Studio"),
    ("studio", "Studio"),
    ("studio/1 bath", "Studio"),
    ("studio/1bath", "Studio"),
    ("convertible", "Convertible"),
    ("alcove", "Convertible"),
    ("jr 1br", "Convertible"),
    ("jr one bedroom/1 bath", "Convertible"),
    ("junior one bedroom/1 bath", "Convertible"),
    ("convertible/1 bath", "Convertible"),
    ("convertible/1bath", "Convertible"),
    ("1", "1BR"),
    ("1br", "1BR"),
    ("1 bed", "1BR"),
    ("one bedroom", "1BR"),
    ("1 bedroom/1bath", "1BR"),
    ("1 bedroom/1 bath", "1BR"),
    ("1br+den", "1BR+Den"),
    ("1 bed den", "1BR+Den"),
    ("1+den", "1BR+Den"),
    ("2", "2BR"),
    ("2br", "2BR"),
    ("2 bed", "2BR"),
    ("2 beds", "2BR"),
    ("two bedroom", "2BR"),
    ("2 bedroom/1 bath", "2BR"),
    ("2 bedroom/1bath", "2BR"),
    ("2 bedroom/2 bath", "2BR"),
    ("2 bedroom/2bath", "2BR"),
    ("3", "3BR+"),
    ("3br", "3BR+"),
    ("3 bed", "3BR+"),
    ("3 beds", "3BR+"),
    ("3+", "3BR+"),
    ("4br", "3BR+"),
    ("4 beds", "3BR+"),
    ("4 bed", "3BR+"),
    ("3 bedroom/3 bath", "3BR+"),
    ("3 bedroom/2 bath", "3BR+"),
    ("3 bedroom/3bath", "3BR+"),
    ("loft studio", "Studio"),
    ("convertible deluxe", "Convertible")
  ] : List (String × String)).map (fun p => (p.1.toList, p.2.toList))

/-- dict.get(key, default) on an association list. -/
def dictGetD (m : List (Str × Str)) (k : Str) (dflt : Str) : Str :=
  match m.find? (fun p => p.1 == k) with
  | some p => p.2
  | none => dflt

/-- UnitInput.normalize_bed_type: map the stripped, lowercased raw value
through BED_TYPE_ALIASES, or preserve the stripped original for unknowns. -/
def normalize_bed_type (v : Str) : Str :=
  let stripped := stripS v
  let lowered := lowerS stripped
  dictGetD BED_TYPE_ALIASES lowered stripped

/-- The non_canonical flag computed in normalize(): the normalized bed type
is not one of the six canonical categories. -/
def bed_type_non_canonical (bt : Str) : Bool :=
  !(CANONICAL_BED_TYPES.contains bt)

/-- Digit-sequence value: the fold Python uses conceptually when parsing a
run of decimal digits. -/
def parseNat (s : Str) : Nat :=
  s.foldl (fun a c => a * 10 + (c.toNat - 48)) 0

/-- The exact value of a parsed decimal float literal: num / 10 ^ scale. -/
structure FloatVal where
  num : Nat
  scale : Nat
deriving DecidableEq

/-- float(s) for the plain decimal grammar (digits, optionally one dot,
at least one digit overall), returning the exact decimal value.  This is an
exact-arithmetic model of CPython binary64 round(float(s) * 100); it is
faithful only on a bounded domain.  For a bare integer s of value d, float(s)
is exact while d < 2^53 and the product float(s) * 100 is exact while
100 * d < 2^53, so there round(float(s) * 100) = 100 * d; once 100 * d
reaches 2^53 the product itself is rounded to 53 bits (ties to even, see
roundTo53 below) and the exact model diverges from the program.  For the
four-digit dollar shapes D,DDD.CC the parsed double is within 2^-40 of the
decimal value and the product within about 10^-9 of the integer
100 * dollars + cents, far below one half, so the rounding outcome agrees
with exact decimal arithmetic.  Every theorem below about normalize_rent
therefore restricts its quantifiers to this faithful envelope.  Exponent
forms, signs, underscores, inf and nan are outside the modelled grammar; the
source never feeds them to this code path. -/
def pyFloat (s : Str) : Option FloatVal :=
  let ip := s.takeWhile isDigitC
  let rest := s.dropWhile isDigitC
  match rest with
  | [] => if ip.isEmpty then none else some ⟨parseNat ip, 0⟩
  | c :: fr =>
    if c = '.' then
      if fr.all isDigitC && !(ip.isEmpty && fr.isEmpty) then
        some ⟨parseNat ip * 10 ^ fr.length + parseNat fr, fr.length⟩
      else
        none
    else
      none

/-- round() of Python on the nonnegative fraction a / b (with b positive):
nearest integer, ties to the even neighbour. -/
def roundHalfEven (a b : Nat) : Nat :=
  let q := a / b
  let r := a % b
  if 2 * r < b then q
  else if b < 2 * r then q + 1
  else if q % 2 = 0 then q else q + 1

/-- Number of low bits a nonnegative integer p exceeds 53 significant bits
by: the least e with p / 2 ^ e < 2 ^ 53, computed structurally with the value
itself as fuel (e is at most the bit length of p, which is at most p). -/
def excessBits : Nat → Nat → Nat
  | 0, _ => 0
  | f + 1, p => if p < 2 ^ 53 then 0 else excessBits f (p / 2) + 1

/-- IEEE-754 binary64 rounding of the nonnegative integer p to the nearest
representable double, round half to even: p is cut to its top 53 bits
(quotient q by the unit in the last place u = 2 ^ excessBits), and the
discarded remainder decides between q * u and (q + 1) * u, a tie going to
the even quotient.  For p below 2 ^ 53 this is the identity. -/
def roundTo53 (p : Nat) : Nat :=
  let e := excessBits p p
  let u := 2 ^ e
  let q := p / u
  let r := p % u
  if 2 * r < u then q * u
  else if u < 2 * r then (q + 1) * u
  else if q % 2 = 0 then q * u else (q + 1) * u

/-- Binary64 model of CPython round(float(s) * 100) for a bare integer
input s of value d < 2 ^ 53: float(s) is then exactly d (correctly rounded
decimal conversion of an integer below 2 ^ 53), the single multiplication
by 100 is correctly rounded to binary64 (roundTo53 of the true product),
and Python round() of the resulting integer-valued double returns its value
unchanged.  This is the faithful semantics of the float path of
normalize_rent on bare integers, used to locate where the exact decimal
model pyFloat stops agreeing with the program. -/
def pyFloatMul100Round (d : Nat) : Nat := roundTo53 (100 * d)

/-- The range separators tried, in order, by UnitInput.normalize_rent. -/
def RENT_RANGE_SEPS : List Str :=
  [" – ".toList, " - ".toList, "–".toList, "-".toList]

/-- UnitInput.normalize_rent: rent string to integer cents; none models the
ValueError raised on non-numeric residue.  Mirrors normalizer.py line for
line: strip, drop a leading "Starting at", remove dollar signs, commas and
"/mo", take the lower bound of a dash-separated range, then
round(float(s) * 100). -/
def normalize_rent (v : Str) : Option Int :=
  let s0 := stripS v
  let s1 :=
    if startsWithS (lowerS s0) ("starting at".toList) then stripS (s0.drop 11)
    else s0
  let s2 := stripS (replaceS (replaceS (replaceS s1 ("$".toList) []) (",".toList) []) ("/mo".toList) [])
  let s3 :=
    match RENT_RANGE_SEPS.find? (fun sep => containsS s2 sep) with
    | some sep => stripS (replaceS (replaceS (takeBeforeS s2 sep) ("$".toList) []) (",".toList) [])
    | none => s2
  match pyFloat s3 with
  | none => none
  | some fv => some ((roundHalfEven (fv.num * 100) (10 ^ fv.scale) : Nat) : Int)

/-- The characters the four rent shapes of the testable properties are
built from. -/
def rentPlainChar (c : Char) : Bool :=
  isDigitC c || c == '$' || c == ',' || c == '.' || c == '/' || c == 'm' || c == 'o'

/-- The character with decimal digit value d. -/
def digitChar (d : Nat) : Char := Char.ofNat (48 + d)

/-- The decimal rendering of n (empty for 0; every n used below is
positive). -/
def renderNat (n : Nat) : Str :=
  ((Nat.digits 10 n).reverse).map digitChar

/-- Two-digit zero-padded rendering, for the cents part of a rent string. -/
def pad2 (c : Nat) : Str := [digitChar (c / 10), digitChar (c % 10)]

/-- Three-digit zero-padded rendering, for the digits after the thousands
comma. -/
def pad3 (m : Nat) : Str := [digitChar (m / 100), digitChar (m / 10 % 10), digitChar (m % 10)]

/-- A four-digit dollar amount with a thousands comma: D,DDD. -/
def commaThousands (d : Nat) : Str :=
  digitChar (d / 1000) :: ',' :: pad3 (d % 1000)

/-- The rent shape $D,DDD.CC. -/
def rentShapeDollar (d c : Nat) : Str :=
  '$' :: commaThousands d ++ '.' :: pad2 c

/-- The rent shape D,DDD. -/
def rentShapeComma (d : Nat) : Str := commaThousands d

/-- The rent shape DDDD/mo. -/
def rentShapePerMo (d : Nat) : Str := renderNat d ++ "/mo".toList

/-- The rent shape of a bare number. -/
def rentShapeBare (d : Nat) : Str := renderNat d

/-!
## Platform detection (src/moxie/scrapers/platform_detect.py)
-/

/-- PLATFORM_PATTERNS: ordered (platform, hostname-substring) pairs, first
match wins.  Transcribed entry for entry. -/
def PLATFORM_PATTERNS : List (Str × Str) :=
  ([
    ("rentcafe", "rentcafe.com"),
    ("rentcafe", "securecafe.com"),
    ("ppm", "ppmapartments.com"),
    ("entrata", "entrata.com"),
    ("entrata", "myentrata.com"),
    ("mri", "residentportal.com"),
    ("funnel", "nestiolistings.com"),
    ("funnel", "funnelleasing.com"),
    ("realpage", "realpage.com"),
    ("realpage", "g5searchmarketing.com"),
    ("bozzuto", "bozzuto.com"),
    ("groupfox", "groupfox.com"),
    ("appfolio", "appfolio.com")
  ] : List (String × String)).map (fun p => (p.1.toList, p.2.toList))

/-- The characters urllib allows inside a URL scheme. -/
def isSchemeC (c : Char) : Bool :=
  isAlphaC c || isDigitC c || c == '+' || c == '-' || c == '.'

/-- The scheme-removal step of urllib.parse.urlsplit: when the text before
the first colon is a wellformed scheme (nonempty, starts with a letter, all
scheme characters), drop it together with the colon. -/
def splitScheme (s : Str) : Str :=
  match s.findIdx? (fun c => c == ':') with
  | none => s
  | some i =>
    let pre := s.take i
    match pre with
    | [] => s
    | c0 :: _ => if isAlphaC c0 && pre.all isSchemeC then s.drop (i + 1) else s

/-- True for characters that terminate the netloc component. -/
def isNetlocEnd (c : Char) : Bool := c == '/' || c == '?' || c == '#'

/-- The expression (urlparse(s).netloc or urlparse(s).path) used by
detect_platform, for the generic-URL grammar of urlsplit: optional scheme,
netloc after a double slash, then path up to the query or fragment. -/
def urlNetlocOrPath (s : Str) : Str :=
  let rest := splitScheme s
  let netloc :=
    if startsWithS rest ("//".toList) then (rest.drop 2).takeWhile (fun c => !isNetlocEnd c)
    else []
  let afterNetloc :=
    if startsWithS rest ("//".toList) then (rest.drop 2).dropWhile (fun c => !isNetlocEnd c)
    else rest
  let path := (afterNetloc.takeWhile (fun c => !(c == '#'))).takeWhile (fun c => !(c == '?'))
  if netloc.isEmpty then path else netloc

/-- detect_platform(url): None for a falsy url, else lowercase the url,
extract hostname (netloc or path) and return the first pattern whose
substring occurs in it.  The Python urlparse can raise ValueError on a
malformed bracketed IPv6 netloc; detect_platform catches that and returns
None.  The embedding collapses that caught-exception path: urlNetlocOrPath
scans brackets like ordinary netloc characters, so on those few inputs the
model may return a pattern match where the program returns None.  None of
the theorems below quantify over bracketed hosts, so no proved statement
rests on the collapsed path. -/
def detect_platform (url : Str) : Option Str :=
  if url.isEmpty then none
  else
    let hostname := urlNetlocOrPath (lowerS url)
    (PLATFORM_PATTERNS.find? (fun pp => containsS hostname pp.2)).map (fun pp => pp.1)

/-- The nine platform tags occurring in PLATFORM_PATTERNS. -/
def NINE_PLATFORM_TAGS : List Str :=
  (["rentcafe", "ppm", "entrata", "mri", "funnel", "realpage", "bozzuto",
    "groupfox", "appfolio"]).map String.toList

/-!
## Sheets sync, platform columns only (src/moxie/sync/sheets.py)

sheets_sync touches building.platform in three places: the upsert of an
existing row (sheet value wins when non-blank), the insert of a new row
(sheet value or NULL), and the detection pass over buildings whose platform
IS NULL.  The per-building effect on the platform column is modelled here;
the other columns and the delete pass do not interact with it.
-/

/-- Step 7 of sheets_sync for an existing building: a non-blank sheet
Platform value overwrites the stored value, a blank one leaves it alone. -/
def upsertPlatformExisting (dbPlatform : Option Str) (sheetPlatform : Str) : Option Str :=
  if sheetPlatform.isEmpty then dbPlatform else some sheetPlatform

/-- Step 7 of sheets_sync for a new building: platform is the sheet value
or NULL. -/
def newBuildingPlatform (sheetPlatform : Str) : Option Str :=
  if sheetPlatform.isEmpty then none else some sheetPlatform

/-- Step 7b of sheets_sync: the detection pass runs only over buildings
whose platform IS NULL and writes detect_platform(url) or the sentinel. -/
def detectStage (platform : Option Str) (url : Str) : Option Str :=
  match platform with
  | some p => some p
  | none => some ((detect_platform url).getD ("needs_classification".toList))

/-- The platform column of an existing building after one sheets_sync
pass: upsert, then the detection stage. -/
def syncPlatformExisting (dbPlatform : Option Str) (sheetPlatform : Str) (url : Str) : Option Str :=
  detectStage (upsertPlatformExisting dbPlatform sheetPlatform) url

/-- The platform column of a freshly inserted building after one
sheets_sync pass: insert, then the detection stage. -/
def syncPlatformNew (sheetPlatform : Str) (url : Str) : Option Str :=
  detectStage (newBuildingPlatform sheetPlatform) url

/-!
## Link scoring of the generative fallback scraper
(src/moxie/scrapers/tier3/llm.py)
-/

/-- _AVAILABILITY_KEYWORDS (a frozenset; only membership counting is used,
so a list transcription is faithful). -/
def AVAILABILITY_KEYWORDS : List Str :=
  (["availability", "available", "apartments", "floor-plan", "floorplan",
    "floor_plan", "floor plan", "units", "rentals", "rent", "rates",
    "pricing", "leasing"]).map String.toList

/-- _SKIP_KEYWORDS (a frozenset; only an existence test is used). -/
def SKIP_KEYWORDS : List Str :=
  (["blog", "news", "gallery", "photos", "contact", "about", "careers",
    "residents", "login", "apply", "faq", "events", "press",
    "/apartments/module/", "/module/legal", "/module/application"]).map String.toList

/-- _score_link(href, text): 0 when any skip keyword occurs in the lowered
href or text, else the number of availability keywords occurring in
either. -/
def score_link (href text : Str) : Nat :=
  let href_l := lowerS href
  let text_l := lowerS text
  if SKIP_KEYWORDS.any (fun kw => containsS href_l kw || containsS text_l kw) then 0
  else AVAILABILITY_KEYWORDS.countP (fun kw => containsS href_l kw || containsS text_l kw)

/-- One entry of result.links.get("internal"): raw href and text. -/
structure Link where
  href : Str
  text : Str
deriving DecidableEq

/-- The loop body filters of _find_availability_link step 2, producing the
resolved href and its score for a link that survives them, or none for a
skipped link.  resolve stands for urljoin(base_url, raw_href); probed is
the probed_urls set of step 1 and probedPaths the recomputed probed_paths
set (equal in the source, where both hold root + path for the explicit
subpages). -/
def candidateOf (resolve : Str → Str) (probed probedPaths : List Str) (l : Link) : Option (Str × Nat) :=
  let raw_href := stripS l.href
  let text := stripS l.text
  if raw_href.isEmpty || startsWithS raw_href ("#".toList) || startsWithS raw_href ("mailto:".toList) then
    none
  else
    let href := resolve raw_href
    if probed.contains href || probed.contains (rstripSlash href) then none
    else if probedPaths.contains href then none
    else some (href, score_link href text)

/-- The best_href / best_score accumulator loop of _find_availability_link:
a candidate replaces the best only with a strictly greater score, so the
first of equal scorers is kept. -/
def bestAux : (Option Str × Nat) → List (Str × Nat) → (Option Str × Nat)
  | acc, [] => acc
  | acc, c :: rest => bestAux (if c.2 > acc.2 then (some c.1, c.2) else acc) rest

/-- The selection among already-scored candidates, started from
best_href = None, best_score = 0. -/
def selectBest (cands : List (Str × Nat)) : Option Str :=
  (bestAux ((none : Option Str), 0) cands).1

/-- Step 2 of _find_availability_link: iterate the internal links, skip the
filtered ones, keep the best score, and return best_href only when
best_score is positive. -/
def findAvailabilityStep2 (resolve : Str → Str) (probed probedPaths : List Str) (links : List Link) : Option Str :=
  (links.foldl
    (fun acc l =>
      match candidateOf resolve probed probedPaths l with
      | none => acc
      | some c => if c.2 > acc.2 then (some c.1, c.2) else acc)
    ((none : Option Str), 0)).1

/-- A concrete internal-link list used by the link-scoring witness. -/
def linksW : List Link :=
  [{ href := "/blog/floorplans".toList, text := "Blog".toList },
   { href := "/contact".toList, text := "Contact".toList },
   { href := "/floorplans-and-pricing".toList, text := "Floor Plans and Pricing".toList },
   { href := "/amenities".toList, text := "Amenities".toList }]

/-!
## Output handling of the generative fallback scraper
(src/moxie/scrapers/tier3/llm.py, _scrape_with_llm lines 277-303)
-/

/-- JSON primitive values that can sit in a parsed record field.  Nested
containers are outside the modelled grammar (the declared extraction schema
has only string fields). -/
inductive JPrim where
  | str (s : Str)
  | num (n : Int)
  | boolean (b : Bool)
  | null
deriving DecidableEq

/-- One element of the parsed JSON list: a dict of fields, or any other
JSON value (skipped by the isinstance check). -/
inductive JItem where
  | dict (fields : List (Str × JPrim))
  | nonDict
deriving DecidableEq

/-- The result of json.loads on the extracted content. -/
inductive JVal where
  | list (items : List JItem)
  | nonList
deriving DecidableEq

/-- item.get(key). -/
def dictLookup (fields : List (Str × JPrim)) (k : Str) : Option JPrim :=
  (fields.find? (fun p => p.1 == k)).map (fun p => p.2)

/-- _RENT_PLACEHOLDER_VALUES (a frozenset; only membership is used). -/
def RENT_PLACEHOLDER_VALUES : List Str :=
  (["", "n/a", "tbd", "call", "contact", "call for pricing",
    "contact for pricing", "call for rent", "varies"]).map String.toList

/-- The Python expression (item.get(k) or "").strip(): missing keys, null,
empty strings, zero and False are falsy and give the empty string; a truthy
non-string has no .strip method, raising AttributeError. -/
def pyGetOrEmptyStrip (v : Option JPrim) : Except String Str :=
  match v with
  | none => Except.ok []
  | some (JPrim.str s) => Except.ok (stripS s)
  | some JPrim.null => Except.ok []
  | some (JPrim.num n) => if n = 0 then Except.ok [] else Except.error "AttributeError"
  | some (JPrim.boolean b) => if b then Except.error "AttributeError" else Except.ok []

/-- One iteration of the post-filter loop: skip non-dicts, read the three
required fields, drop blank identifiers and placeholder rents, keep the
original item otherwise. -/
def llmFilterItem (item : JItem) : Except String (Option JItem) :=
  match item with
  | JItem.nonDict => Except.ok none
  | JItem.dict fields => do
    let unit_number ← pyGetOrEmptyStrip (dictLookup fields ("unit_number".toList))
    let bed_type ← pyGetOrEmptyStrip (dictLookup fields ("bed_type".toList))
    let rent ← pyGetOrEmptyStrip (dictLookup fields ("rent".toList))
    if unit_number.isEmpty || bed_type.isEmpty then Except.ok none
    else if RENT_PLACEHOLDER_VALUES.contains (lowerS rent) then Except.ok none
    else Except.ok (some item)

/-- The post-filter loop over the parsed list, in order; an exception from
any iteration propagates. -/
def llmPostFilter : List JItem → Except String (List JItem)
  | [] => Except.ok []
  | item :: rest =>
    match llmFilterItem item with
    | Except.error e => Except.error e
    | Except.ok none => llmPostFilter rest
    | Except.ok (some it) => (llmPostFilter rest).map (fun us => it :: us)

/-- The tail of _scrape_with_llm: a json.loads failure is caught and yields
the empty list, a parsed non-list yields the empty list, and a parsed list
goes through the post-filter. -/
def llmParseResult (parsed : Except String JVal) : Except String (List JItem) :=
  match parsed with
  | Except.error _ => Except.ok []
  | Except.ok JVal.nonList => Except.ok []
  | Except.ok (JVal.list items) => llmPostFilter items

/-- The stripped string value the or-strip expression produces for a field
whose value is a string or falsy. -/
def fieldStrD (fields : List (Str × JPrim)) (k : Str) : Str :=
  match dictLookup fields k with
  | some (JPrim.str s) => stripS s
  | _ => []

/-- The keep-decision of the post-filter for records whose fields carry
only falsy or string values (the declared schema): used to state which
records survive. -/
def llmKeeps (item : JItem) : Bool :=
  match item with
  | JItem.nonDict => false
  | JItem.dict fields =>
    let u := fieldStrD fields ("unit_number".toList)
    let b := fieldStrD fields ("bed_type".toList)
    let r := fieldStrD fields ("rent".toList)
    !u.isEmpty && !b.isEmpty && !(RENT_PLACEHOLDER_VALUES.contains (lowerS r))

/-- Field values on which the Python or-strip expression cannot raise:
anything but a nonzero number or True. -/
def primSafe : Option JPrim → Bool
  | some (JPrim.num n) => n = 0
  | some (JPrim.boolean b) => !b
  | _ => true

/-- An item whose three read fields are all safe. -/
def itemSafe (item : JItem) : Bool :=
  match item with
  | JItem.nonDict => true
  | JItem.dict fields =>
    primSafe (dictLookup fields ("unit_number".toList)) &&
    primSafe (dictLookup fields ("bed_type".toList)) &&
    primSafe (dictLookup fields ("rent".toList))

/-- A concrete parsed list used by the post-filter witness: one valid
record, one with a blank unit number, one with a placeholder rent, and one
non-dict element. -/
def llmItemsW : List JItem :=
  [JItem.dict [("unit_number".toList, JPrim.str ("101".toList)),
               ("bed_type".toList, JPrim.str ("1BR".toList)),
               ("rent".toList, JPrim.str ("$1,500".toList))],
   JItem.dict [("unit_number".toList, JPrim.str (" ".toList)),
               ("bed_type".toList, JPrim.str ("2BR".toList)),
               ("rent".toList, JPrim.str ("$2,000".toList))],
   JItem.dict [("unit_number".toList, JPrim.str ("202".toList)),
               ("bed_type".toList, JPrim.str ("2BR".toList)),
               ("rent".toList, JPrim.str ("Call for Pricing".toList))],
   JItem.nonDict]

/-!
## Scrape result state machine
(src/moxie/scrapers/base.py and src/moxie/scheduler/runner.py)

The per-building database state is a record of the mutated columns and
rows: consecutive_zero_count (nullable in the schema, hence Option),
last_scrape_status, the Unit rows of the building, and its ScrapeRun audit
rows.  last_scraped_at is a wall-clock timestamp and is not modelled.

normalize() is passed in as a function nf over an abstract raw-record type:
its date branch depends on dateutil and on the current date, so the state
machine is proved for every normalizer behaviour.  Except.error models a
raised pydantic.ValidationError / ValueError.
-/

/-- The Unit columns the claims mention. -/
structure UnitRec where
  unit_number : String
  bed_type : String
  rent_cents : Int
deriving DecidableEq

/-- One ScrapeRun audit row (timestamp not modelled). -/
structure ScrapeRunRec where
  status : String
  unit_count : Nat
  error_message : Option String
deriving DecidableEq

/-- The mutable per-building state. -/
structure BuildingState where
  consecutive_zero_count : Option Nat
  last_scrape_status : String
  units : List UnitRec
  runs : List ScrapeRunRec
deriving DecidableEq

/-- CONSECUTIVE_ZERO_THRESHOLD from scrapers/base.py. -/
def CONSECUTIVE_ZERO_THRESHOLD : Nat := 5

/-- The normalize loop of save_scrape_result: every raw record is
normalized in order and the first exception propagates. -/
def normalizeAll {Raw : Type} (nf : Raw → Except String UnitRec) :
    List Raw → Except String (List UnitRec)
  | [] => Except.ok []
  | r :: rest =>
    match nf r with
    | Except.error e => Except.error e
    | Except.ok u => (normalizeAll nf rest).map (fun us => u :: us)

/-- The normalize loop of scrape_one_building: each record is normalized
inside its own try/except and unparseable records are skipped. -/
def savedUnits {Raw : Type} (nf : Raw → Except String UnitRec) (raws : List Raw) :
    List UnitRec :=
  raws.filterMap (fun r =>
    match nf r with
    | Except.ok u => some u
    | Except.error _ => none)

/-- save_scrape_result (scrapers/base.py).  On success the stored units are
deleted and the normalized raws inserted; normalization failures are not
caught here, so Except.error models the exception reaching the caller
before any commit (the transaction is then discarded, leaving the stored
state untouched).  On failure the stored units are retained and only the
status changes.  Every committed outcome appends one ScrapeRun row. -/
def save_scrape_result {Raw : Type} (nf : Raw → Except String UnitRec)
    (b : BuildingState) (raw_units : List Raw)
    (scrape_succeeded : Bool) (error_message : Option String) :
    Except String BuildingState :=
  if scrape_succeeded then
    if raw_units.isEmpty then
      let cnt := b.consecutive_zero_count.getD 0 + 1
      let status :=
        if CONSECUTIVE_ZERO_THRESHOLD ≤ cnt then "needs_attention" else "success"
      Except.ok { b with
        units := [],
        consecutive_zero_count := some cnt,
        last_scrape_status := status,
        runs := b.runs ++ [⟨"success", raw_units.length, error_message⟩] }
    else
      match normalizeAll nf raw_units with
      | Except.error e => Except.error e
      | Except.ok us =>
        Except.ok { b with
          units := us,
          consecutive_zero_count := some 0,
          last_scrape_status := "success",
          runs := b.runs ++ [⟨"success", raw_units.length, error_message⟩] }
  else
    Except.ok { b with
      last_scrape_status := "failed",
      runs := b.runs ++ [⟨"failed", 0, error_message⟩] }

/-- What the extraction strategy did for one building: returned raw
records, or raised. -/
inductive ScrapeOutcome (Raw : Type) where
  | ok (raws : List Raw)
  | raised (msg : String)

/-- The result dict of scrape_one_building (the keys the claims mention). -/
structure RunnerResult where
  status : String
  unit_count : Nat
  error : Option String
deriving DecidableEq

/-- scrape_one_building (scheduler/runner.py), given the strategy outcome.
On a strategy success, old units are deleted, each raw record is normalized
inside its own try/except (unparseable records are skipped), the counters
are updated from the number of saved units and a success ScrapeRun row is
committed.  On a raised exception the session is rolled back (no partial
write survives) and the failure path of save_scrape_result records the
error; the inner try/except around that call keeps the state unchanged if
it were itself to fail.  The function itself never raises.  The politeness
delay and the error-string truncation are not modelled. -/
def scrape_one_building {Raw : Type} (nf : Raw → Except String UnitRec)
    (b : BuildingState) (outcome : ScrapeOutcome Raw) :
    BuildingState × RunnerResult :=
  match outcome with
  | ScrapeOutcome.ok raws =>
    let saved := savedUnits nf raws
    let b1 :=
      if 0 < saved.length then
        { b with units := saved, consecutive_zero_count := some 0,
                 last_scrape_status := "success" }
      else
        let cnt := b.consecutive_zero_count.getD 0 + 1
        { b with units := saved, consecutive_zero_count := some cnt,
                 last_scrape_status :=
                   if 5 ≤ cnt then "needs_attention" else "success" }
    let b2 := { b1 with runs := b1.runs ++ [⟨"success", saved.length, none⟩] }
    (b2, { status := "success", unit_count := saved.length, error := none })
  | ScrapeOutcome.raised msg =>
    match save_scrape_result nf b [] false (some msg) with
    | Except.ok b2 => (b2, { status := "failed", unit_count := 0, error := some msg })
    | Except.error _ => (b, { status := "failed", unit_count := 0, error := some msg })

/-!
## Batch orchestrator (src/moxie/scheduler/batch.py)

run_batch is embedded over the outcomes of its collaborators: the result of
sheets_sync (which may raise), the result of the building-list query (which
may raise), and per building the stored state and the strategy outcome.
The thread pool is modelled sequentially: no claim concerns completion
order.  The status push, availability push and audit pruning of steps 4-6
catch their own exceptions and do not affect the returned list, and dry-run
mode is not modelled.
-/

/-- PLATFORM_SCRAPERS keys (scrapers/registry.py). -/
def PLATFORM_SCRAPERS_KEYS : List String :=
  ["rentcafe", "ppm", "funnel", "appfolio", "bozzuto", "realpage",
   "groupfox", "sightmap", "entrata", "mri", "llm"]

/-- SKIP_PLATFORMS (scrapers/registry.py). -/
def SKIP_PLATFORMS : List String := ["dead", "needs_classification"]

/-- One Building row as read by the step-2 query. -/
structure BSpec where
  id : Nat
  name : String
  url : String
  platform : Option String
deriving DecidableEq

/-- run_batch.  Step 1: an exception from sheets_sync is caught and only
logged, the run continues.  Step 2: an exception from the building-list
query propagates, aborting the run.  Step 3: one scrape per filtered
building; scrape_one_building handles its own exceptions, and the
future.result try/except in the source is unreachable. -/
def run_batch {Raw : Type} (nf : Raw → Except String UnitRec)
    (skip_sheets_sync : Bool)
    (sheetsSyncResult : Except String Unit)
    (loadBuildingsResult : Except String (List BSpec))
    (bstate : Nat → BuildingState)
    (outcome : Nat → ScrapeOutcome Raw) :
    Except String (List RunnerResult) :=
  let _sheetsSyncLogged : Option String :=
    if skip_sheets_sync then none
    else
      match sheetsSyncResult with
      | Except.error e => some e
      | Except.ok _ => none
  match loadBuildingsResult with
  | Except.error e => Except.error e
  | Except.ok rows =>
    let loaded := rows.filter (fun s =>
      match s.platform with
      | none => false
      | some p => !(SKIP_PLATFORMS.contains p))
    let specs := loaded.filter (fun s =>
      match s.platform with
      | none => false
      | some p => PLATFORM_SCRAPERS_KEYS.contains p)
    Except.ok (specs.map (fun s => (scrape_one_building nf (bstate s.id) (outcome s.id)).2))

/-- A concrete normalizer instance used by witnesses: the raw record is a
pair of unit number and rent string, pushed through the modelled
normalize_rent; a rent that fails to parse models the ValidationError
normalize() raises. -/
def rentNf (raw : String × String) : Except String UnitRec :=
  match normalize_rent raw.2.toList with
  | some cents => Except.ok ⟨raw.1, "1BR", cents⟩
  | none => Except.error "ValidationError"

/-- A concrete fresh building state, as the roster sync creates it, used by
witnesses and counterexamples. -/
def bstate0 : BuildingState :=
  { consecutive_zero_count := some 0,
    last_scrape_status := "never",
    units := [⟨"OLD-1", "Studio", 100000⟩],
    runs := [] }

/-!
# Theorems

Shared lemmas first, then one theorem per claim, each with its witness or
counterexample where applicable.
-/

theorem savedUnits_append {Raw : Type} (nf : Raw → Except String UnitRec)
    (l₁ l₂ : List Raw) :
    savedUnits nf (l₁ ++ l₂) = savedUnits nf l₁ ++ savedUnits nf l₂ := by
  simp [savedUnits]

theorem savedUnits_cons_error {Raw : Type} (nf : Raw → Except String UnitRec)
    (r : Raw) (l : List Raw) (e : String) (h : nf r = Except.error e) :
    savedUnits nf (r :: l) = savedUnits nf l := by
  simp [savedUnits, List.filterMap_cons, h]

theorem savedUnits_of_normalizeAll_ok {Raw : Type} (nf : Raw → Except String UnitRec) :
    ∀ (l : List Raw) (us : List UnitRec),
      normalizeAll nf l = Except.ok us → savedUnits nf l = us := by
  intro l
  induction l with
  | nil =>
    intro us h
    simp [normalizeAll] at h
    simp [savedUnits, h]
  | cons a t ih =>
    intro us h
    simp only [normalizeAll] at h
    cases ha : nf a with
    | error e => rw [ha] at h; exact absurd h (by simp)
    | ok u =>
      rw [ha] at h
      cases ht : normalizeAll nf t with
      | error e => rw [ht] at h; exact absurd h (by simp [Except.map])
      | ok us2 =>
        rw [ht] at h
        simp [Except.map] at h
        rw [savedUnits, List.filterMap_cons, ha, ← h]
        have := ih us2 ht
        rw [savedUnits] at this
        simp [this]

theorem normalizeAll_append_error {Raw : Type} (nf : Raw → Except String UnitRec)
    (l₁ : List Raw) (r : Raw) (l₂ : List Raw) (us₁ : List UnitRec) (e : String)
    (h₁ : normalizeAll nf l₁ = Except.ok us₁) (hr : nf r = Except.error e) :
    normalizeAll nf (l₁ ++ r :: l₂) = Except.error e := by
  induction l₁ generalizing us₁ with
  | nil => simp [normalizeAll, hr]
  | cons a t ih =>
    rw [List.cons_append]
    simp only [normalizeAll] at h₁ ⊢
    cases ha : nf a with
    | error e2 => rw [ha] at h₁; exact absurd h₁ (by simp)
    | ok u =>
      cases ht : normalizeAll nf t with
      | error e2 =>
        rw [ha, ht] at h₁
        exact absurd h₁ (by simp [Except.map])
      | ok us2 =>
        rw [ih us2 ht]
        simp [ha, Except.map]

theorem scrape_one_building_ok_eq {Raw : Type} (nf : Raw → Except String UnitRec)
    (b : BuildingState) (raws : List Raw) :
    scrape_one_building nf b (ScrapeOutcome.ok raws) =
      (if 0 < (savedUnits nf raws).length then
        ({ b with
           units := savedUnits nf raws,
           consecutive_zero_count := some 0,
           last_scrape_status := "success",
           runs := b.runs ++ [⟨"success", (savedUnits nf raws).length, none⟩] },
         { status := "success", unit_count := (savedUnits nf raws).length, error := none })
      else
        ({ b with
           units := savedUnits nf raws,
           consecutive_zero_count := some (b.consecutive_zero_count.getD 0 + 1),
           last_scrape_status :=
             if 5 ≤ b.consecutive_zero_count.getD 0 + 1 then "needs_attention"
             else "success",
           runs := b.runs ++ [⟨"success", (savedUnits nf raws).length, none⟩] },
         { status := "success", unit_count := (savedUnits nf raws).length, error := none })) := by
  by_cases h : 0 < (savedUnits nf raws).length
  · simp [scrape_one_building, h]
  · simp [scrape_one_building, h]

theorem scrape_one_building_ok_units {Raw : Type} (nf : Raw → Except String UnitRec)
    (b : BuildingState) (raws : List Raw) :
    (scrape_one_building nf b (ScrapeOutcome.ok raws)).1.units = savedUnits nf raws := by
  rw [scrape_one_building_ok_eq]
  by_cases h : 0 < (savedUnits nf raws).length
  · rw [if_pos h]
  · rw [if_neg h]

theorem scrape_one_building_ok_result {Raw : Type} (nf : Raw → Except String UnitRec)
    (b : BuildingState) (raws : List Raw) :
    (scrape_one_building nf b (ScrapeOutcome.ok raws)).2 =
      { status := "success", unit_count := (savedUnits nf raws).length, error := none } := by
  rw [scrape_one_building_ok_eq]
  by_cases h : 0 < (savedUnits nf raws).length
  · rw [if_pos h]
  · rw [if_neg h]

theorem save_scrape_result_empty_eq {Raw : Type} (nf : Raw → Except String UnitRec)
    (b : BuildingState) (err : Option String) :
    save_scrape_result nf b ([] : List Raw) true err = Except.ok
      { b with
        units := [],
        consecutive_zero_count := some (b.consecutive_zero_count.getD 0 + 1),
        last_scrape_status :=
          if CONSECUTIVE_ZERO_THRESHOLD ≤ b.consecutive_zero_count.getD 0 + 1 then
            "needs_attention" else "success",
        runs := b.runs ++ [⟨"success", 0, err⟩] } := rfl

theorem save_scrape_result_failure_eq {Raw : Type} (nf : Raw → Except String UnitRec)
    (b : BuildingState) (raws : List Raw) (err : Option String) :
    save_scrape_result nf b raws false err = Except.ok
      { b with
        last_scrape_status := "failed",
        runs := b.runs ++ [⟨"failed", 0, err⟩] } := rfl

theorem save_scrape_result_success_eq {Raw : Type} (nf : Raw → Except String UnitRec)
    (b : BuildingState) (raws : List Raw) (us : List UnitRec) (err : Option String)
    (hne : raws ≠ []) (hall : normalizeAll nf raws = Except.ok us) :
    save_scrape_result nf b raws true err = Except.ok
      { b with
        units := us,
        consecutive_zero_count := some 0,
        last_scrape_status := "success",
        runs := b.runs ++ [⟨"success", raws.length, err⟩] } := by
  rw [save_scrape_result, if_pos rfl, if_neg (by simp [hne]), hall]

theorem scrape_one_building_raised_eq {Raw : Type} (nf : Raw → Except String UnitRec)
    (b : BuildingState) (msg : String) :
    scrape_one_building nf b (ScrapeOutcome.raised msg) =
      ({ b with
         last_scrape_status := "failed",
         runs := b.runs ++ [⟨"failed", 0, some msg⟩] },
       { status := "failed", unit_count := 0, error := some msg }) := rfl

/-- Claim C1: for every building and every recorded scrape outcome (via
save_scrape_result / scrape_one_building), a success with at least one
normalized unit resets consecutive_zero_count to 0 and sets
last_scrape_status to success; a success with zero normalized units
increments consecutive_zero_count by exactly 1, the status becoming
needs_attention exactly when the count has reached the threshold 5 and
success otherwise; a failure leaves consecutive_zero_count unchanged and
sets last_scrape_status to failed. -/
theorem save_scrape_result_zero_count_transitions :
    CONSECUTIVE_ZERO_THRESHOLD = 5 ∧
    (∀ (Raw : Type) (nf : Raw → Except String UnitRec) (b : BuildingState)
        (raws : List Raw) (us : List UnitRec) (err : Option String) (b2 : BuildingState),
        raws ≠ [] →
        normalizeAll nf raws = Except.ok us →
        save_scrape_result nf b raws true err = Except.ok b2 →
        b2.consecutive_zero_count = some 0 ∧ b2.last_scrape_status = "success") ∧
    (∀ (Raw : Type) (nf : Raw → Except String UnitRec) (b : BuildingState)
        (err : Option String) (b2 : BuildingState),
        save_scrape_result nf b ([] : List Raw) true err = Except.ok b2 →
        b2.consecutive_zero_count = some (b.consecutive_zero_count.getD 0 + 1) ∧
        b2.last_scrape_status =
          (if CONSECUTIVE_ZERO_THRESHOLD ≤ b.consecutive_zero_count.getD 0 + 1 then
            "needs_attention" else "success")) ∧
    (∀ (Raw : Type) (nf : Raw → Except String UnitRec) (b : BuildingState)
        (raws : List Raw) (err : Option String) (b2 : BuildingState),
        save_scrape_result nf b raws false err = Except.ok b2 →
        b2.consecutive_zero_count = b.consecutive_zero_count ∧
        b2.last_scrape_status = "failed") ∧
    (∀ (Raw : Type) (nf : Raw → Except String UnitRec) (b : BuildingState)
        (raws : List Raw),
        0 < (savedUnits nf raws).length →
        (scrape_one_building nf b (ScrapeOutcome.ok raws)).1.consecutive_zero_count = some 0 ∧
        (scrape_one_building nf b (ScrapeOutcome.ok raws)).1.last_scrape_status = "success") ∧
    (∀ (Raw : Type) (nf : Raw → Except String UnitRec) (b : BuildingState)
        (raws : List Raw),
        (savedUnits nf raws).length = 0 →
        (scrape_one_building nf b (ScrapeOutcome.ok raws)).1.consecutive_zero_count =
          some (b.consecutive_zero_count.getD 0 + 1) ∧
        (scrape_one_building nf b (ScrapeOutcome.ok raws)).1.last_scrape_status =
          (if 5 ≤ b.consecutive_zero_count.getD 0 + 1 then "needs_attention" else "success")) ∧
    (∀ (Raw : Type) (nf : Raw → Except String UnitRec) (b : BuildingState) (msg : String),
        (scrape_one_building nf b (ScrapeOutcome.raised msg)).1.consecutive_zero_count =
          b.consecutive_zero_count ∧
        (scrape_one_building nf b (ScrapeOutcome.raised msg)).1.last_scrape_status = "failed") := by
  refine ⟨rfl, ?_, ?_, ?_, ?_, ?_, ?_⟩
  · intro Raw nf b raws us err b2 hne hall hsave
    rw [save_scrape_result_success_eq nf b raws us err hne hall] at hsave
    cases Except.ok.inj hsave
    exact ⟨rfl, rfl⟩
  · intro Raw nf b err b2 hsave
    rw [save_scrape_result_empty_eq] at hsave
    cases Except.ok.inj hsave
    exact ⟨rfl, rfl⟩
  · intro Raw nf b raws err b2 hsave
    rw [save_scrape_result_failure_eq] at hsave
    cases Except.ok.inj hsave
    exact ⟨rfl, rfl⟩
  · intro Raw nf b raws hpos
    rw [scrape_one_building_ok_eq, if_pos hpos]
    exact ⟨rfl, rfl⟩
  · intro Raw nf b raws hzero
    rw [scrape_one_building_ok_eq, if_neg (by omega : ¬ 0 < (savedUnits nf raws).length)]
    exact ⟨rfl, rfl⟩
  · intro Raw nf b msg
    rw [scrape_one_building_raised_eq]
    exact ⟨rfl, rfl⟩

theorem save_scrape_result_zero_count_transitions_witness :
    (0 < (savedUnits rentNf [("101", "$1,500.00")]).length) ∧
    (scrape_one_building rentNf bstate0
        (ScrapeOutcome.ok [("101", "$1,500.00")])).1.consecutive_zero_count = some 0 ∧
    (scrape_one_building rentNf bstate0
        (ScrapeOutcome.ok [("101", "$1,500.00")])).1.last_scrape_status = "success" :=
  ⟨by decide,
   save_scrape_result_zero_count_transitions.2.2.2.2.1 (String × String) rentNf bstate0
     [("101", "$1,500.00")] (by decide)⟩

/-- Claim C2: when a scrape attempt results in a failure outcome (the
strategy raised), the stored Unit rows of the building after the
transition are exactly the rows present before the attempt, on both the
scrape_one_building path and the save_scrape_result failure path. -/
theorem failure_outcome_preserves_stored_units :
    (∀ (Raw : Type) (nf : Raw → Except String UnitRec) (b : BuildingState) (msg : String),
        (scrape_one_building nf b (ScrapeOutcome.raised msg)).1.units = b.units) ∧
    (∀ (Raw : Type) (nf : Raw → Except String UnitRec) (b : BuildingState)
        (raws : List Raw) (err : Option String),
        (save_scrape_result nf b raws false err).map BuildingState.units =
          Except.ok b.units) := by
  constructor
  · intro Raw nf b msg
    rw [scrape_one_building_raised_eq]
  · intro Raw nf b raws err
    rw [save_scrape_result_failure_eq]
    rfl

theorem failure_outcome_preserves_stored_units_witness :
    (scrape_one_building rentNf bstate0 (ScrapeOutcome.raised "timeout")).1.units =
      bstate0.units :=
  failure_outcome_preserves_stored_units.1 (String × String) rentNf bstate0 "timeout"

/-- Counterexample to claim C3 as stated: a roster-load (sheets_sync)
failure does not abort the batch run.  With the roster load raising and
everything else healthy, run_batch still returns a result list — the
exception is caught inside step 1 and the run continues with the existing
building list. -/
theorem roster_failure_does_not_abort_run :
    run_batch rentNf false (Except.error "sheets sync failed")
      (Except.ok [{ id := 1, name := "Building One", url := "https://example.com",
                    platform := some "llm" }])
      (fun _ => bstate0) (fun _ => ScrapeOutcome.raised "boom") =
    Except.ok [{ status := "failed", unit_count := 0, error := some "boom" }] := by
  rfl

/-- Claim C3, amended: only a failure to load the building list aborts the
whole batch run; a roster (sheets_sync) failure is caught and logged and
the run continues with the existing building list, its outcome independent
of the roster result; any single building raising is converted into a
per-building failed result and never propagates out of run_batch. -/
theorem run_batch_abort_conditions :
    (∀ (Raw : Type) (nf : Raw → Except String UnitRec) (skip : Bool)
        (ss : Except String Unit) (e : String)
        (bstate : Nat → BuildingState) (outcome : Nat → ScrapeOutcome Raw),
        run_batch nf skip ss (Except.error e) bstate outcome = Except.error e) ∧
    (∀ (Raw : Type) (nf : Raw → Except String UnitRec) (skip : Bool)
        (ss : Except String Unit) (rows : List BSpec)
        (bstate : Nat → BuildingState) (outcome : Nat → ScrapeOutcome Raw),
        ∃ rs, run_batch nf skip ss (Except.ok rows) bstate outcome = Except.ok rs) ∧
    (∀ (Raw : Type) (nf : Raw → Except String UnitRec) (skip : Bool)
        (ss ss2 : Except String Unit) (lb : Except String (List BSpec))
        (bstate : Nat → BuildingState) (outcome : Nat → ScrapeOutcome Raw),
        run_batch nf skip ss lb bstate outcome = run_batch nf skip ss2 lb bstate outcome) ∧
    (∀ (Raw : Type) (nf : Raw → Except String UnitRec) (b : BuildingState) (msg : String),
        (scrape_one_building nf b (ScrapeOutcome.raised msg)).2 =
          { status := "failed", unit_count := 0, error := some msg }) := by
  refine ⟨fun _ _ _ _ _ _ _ => rfl, ?_, fun _ _ _ _ _ _ _ _ => rfl, ?_⟩
  · intro Raw nf skip ss rows bstate outcome
    exact ⟨_, rfl⟩
  · intro Raw nf b msg
    rw [scrape_one_building_raised_eq]

theorem run_batch_abort_conditions_witness :
    run_batch rentNf false (Except.ok ()) (Except.error "db down")
      (fun _ => bstate0) (fun _ => ScrapeOutcome.raised "boom") =
    Except.error "db down" :=
  run_batch_abort_conditions.1 (String × String) rentNf false (Except.ok ()) "db down"
    (fun _ => bstate0) (fun _ => ScrapeOutcome.raised "boom")

/-- Counterexample to claim C4 as stated: on the save_scrape_result path a
validation failure while normalizing one record does not drop only that
record — the exception propagates and nothing is committed, even though the
other record of the batch is valid. -/
theorem save_scrape_result_validation_failure_aborts :
    save_scrape_result rentNf bstate0 [("101", "$1,500.00"), ("202", "call")] true none =
      Except.error "ValidationError" := by
  rfl

/-- Claim C4, amended: on the batch per-building path
(scrape_one_building), a validation failure while normalizing one record of
a successful scrape drops only that record — every other record is still
normalized and stored and the scrape is committed as a success with the
saved count; on the save_scrape_result path the validation error
propagates instead and nothing is committed. -/
theorem validation_failure_drops_only_that_record :
    (∀ (Raw : Type) (nf : Raw → Except String UnitRec) (b : BuildingState)
        (raws₁ : List Raw) (r : Raw) (raws₂ : List Raw)
        (us₁ us₂ : List UnitRec) (e : String),
        normalizeAll nf raws₁ = Except.ok us₁ →
        nf r = Except.error e →
        normalizeAll nf raws₂ = Except.ok us₂ →
        (scrape_one_building nf b (ScrapeOutcome.ok (raws₁ ++ r :: raws₂))).1.units =
            us₁ ++ us₂ ∧
        (scrape_one_building nf b (ScrapeOutcome.ok (raws₁ ++ r :: raws₂))).2.status =
            "success" ∧
        (scrape_one_building nf b (ScrapeOutcome.ok (raws₁ ++ r :: raws₂))).2.unit_count =
            us₁.length + us₂.length) ∧
    (∀ (Raw : Type) (nf : Raw → Except String UnitRec) (b : BuildingState)
        (raws : List Raw) (err : Option String) (e : String),
        normalizeAll nf raws = Except.error e →
        save_scrape_result nf b raws true err = Except.error e) := by
  constructor
  · intro Raw nf b raws₁ r raws₂ us₁ us₂ e h₁ hr h₂
    have hsaved : savedUnits nf (raws₁ ++ r :: raws₂) = us₁ ++ us₂ := by
      rw [savedUnits_append, savedUnits_cons_error nf r raws₂ e hr,
        savedUnits_of_normalizeAll_ok nf raws₁ us₁ h₁,
        savedUnits_of_normalizeAll_ok nf raws₂ us₂ h₂]
    refine ⟨?_, ?_, ?_⟩
    · rw [scrape_one_building_ok_units, hsaved]
    · rw [scrape_one_building_ok_result]
    · rw [scrape_one_building_ok_result]
      simp only [hsaved, List.length_append]
  · intro Raw nf b raws err e hall
    have hne : ¬ raws.isEmpty = true := by
      cases raws with
      | nil => rw [normalizeAll] at hall; exact absurd hall (by simp)
      | cons a t => simp
    rw [save_scrape_result, if_pos rfl, if_neg hne, hall]

theorem validation_failure_drops_only_that_record_witness :
    (normalizeAll rentNf [("101", "$1,500.00")] = Except.ok [⟨"101", "1BR", 150000⟩]) ∧
    (rentNf ("202", "call") = Except.error "ValidationError") ∧
    (normalizeAll rentNf [("303", "2,250/mo")] = Except.ok [⟨"303", "1BR", 225000⟩]) ∧
    (scrape_one_building rentNf bstate0
        (ScrapeOutcome.ok [("101", "$1,500.00"), ("202", "call"), ("303", "2,250/mo")])).1.units =
      [⟨"101", "1BR", 150000⟩] ++ [⟨"303", "1BR", 225000⟩] ∧
    (scrape_one_building rentNf bstate0
        (ScrapeOutcome.ok [("101", "$1,500.00"), ("202", "call"), ("303", "2,250/mo")])).2.status =
      "success" ∧
    (scrape_one_building rentNf bstate0
        (ScrapeOutcome.ok [("101", "$1,500.00"), ("202", "call"), ("303", "2,250/mo")])).2.unit_count =
      1 + 1 :=
  ⟨by rfl, by rfl, by rfl,
   validation_failure_drops_only_that_record.1 (String × String) rentNf bstate0
     [("101", "$1,500.00")] ("202", "call") [("303", "2,250/mo")]
     [⟨"101", "1BR", 150000⟩] [⟨"303", "1BR", 225000⟩] "ValidationError"
     (by rfl) (by rfl) (by rfl)⟩

/-- Claim C5: bed-type normalization is idempotent on the six canonical
values, each mapping to itself with non_canonical false. -/
theorem bed_type_normalization_idempotent_on_canonical :
    (normalize_bed_type ("Studio".toList) = "Studio".toList ∧
      bed_type_non_canonical (normalize_bed_type ("Studio".toList)) = false) ∧
    (normalize_bed_type ("Convertible".toList) = "Convertible".toList ∧
      bed_type_non_canonical (normalize_bed_type ("Convertible".toList)) = false) ∧
    (normalize_bed_type ("1BR".toList) = "1BR".toList ∧
      bed_type_non_canonical (normalize_bed_type ("1BR".toList)) = false) ∧
    (normalize_bed_type ("1BR+Den".toList) = "1BR+Den".toList ∧
      bed_type_non_canonical (normalize_bed_type ("1BR+Den".toList)) = false) ∧
    (normalize_bed_type ("2BR".toList) = "2BR".toList ∧
      bed_type_non_canonical (normalize_bed_type ("2BR".toList)) = false) ∧
    (normalize_bed_type ("3BR+".toList) = "3BR+".toList ∧
      bed_type_non_canonical (normalize_bed_type ("3BR+".toList)) = false) := by
  decide

/-- Claim C9: platform classification fills blanks only — sync-time URL
detection never changes a non-null platform, assigns only to null
platforms (sentinel needs_classification when no pattern matches), while a
non-blank sheet Platform value is written unconditionally, for existing and
new buildings alike. -/
theorem platform_classification_fills_blanks_only :
    (∀ (v : Str) (url : Str), syncPlatformExisting (some v) [] url = some v) ∧
    (∀ url : Str, syncPlatformExisting none [] url =
        some ((detect_platform url).getD ("needs_classification".toList))) ∧
    (∀ url : Str, detect_platform url = none →
        syncPlatformExisting none [] url = some ("needs_classification".toList)) ∧
    (∀ (dbp : Option Str) (sp url : Str), sp ≠ [] →
        syncPlatformExisting dbp sp url = some sp) ∧
    (∀ (sp url : Str), sp ≠ [] → syncPlatformNew sp url = some sp) ∧
    (∀ url : Str, syncPlatformNew [] url =
        some ((detect_platform url).getD ("needs_classification".toList))) := by
  refine ⟨?_, ?_, ?_, ?_, ?_, ?_⟩
  · intro v url
    rfl
  · intro url
    rfl
  · intro url h
    simp [syncPlatformExisting, upsertPlatformExisting, detectStage, h]
  · intro dbp sp url h
    simp [syncPlatformExisting, upsertPlatformExisting, detectStage,
      List.isEmpty_iff, h]
  · intro sp url h
    simp [syncPlatformNew, newBuildingPlatform, detectStage, List.isEmpty_iff, h]
  · intro url
    rfl

theorem platform_classification_fills_blanks_only_witness :
    (detect_platform ("https://customsite.example".toList) = none →
      syncPlatformExisting none [] ("https://customsite.example".toList) =
        some ("needs_classification".toList)) ∧
    (("rentcafe".toList ≠ ([] : Str)) ∧
      syncPlatformExisting (some ("llm".toList)) ("rentcafe".toList)
        ("https://example.com".toList) = some ("rentcafe".toList)) :=
  ⟨platform_classification_fills_blanks_only.2.2.1 ("https://customsite.example".toList),
   ⟨by decide,
    platform_classification_fills_blanks_only.2.2.2.1 (some ("llm".toList))
      ("rentcafe".toList) ("https://example.com".toList) (by decide)⟩⟩

/-- Claim C10: detect_platform is total, returning none or one of the nine
platform tags of PLATFORM_PATTERNS; it returns none for the empty string;
and its result is invariant under letter-case changes of the url, because
the url is lowercased before the ordered substring match. -/
theorem detect_platform_total_and_case_invariant :
    (∀ (url : Str) (p : Str), detect_platform url = some p → p ∈ NINE_PLATFORM_TAGS) ∧
    detect_platform [] = none ∧
    (∀ u v : Str, lowerS u = lowerS v → detect_platform u = detect_platform v) := by
  refine ⟨?_, rfl, ?_⟩
  · intro url p h
    by_cases he : url.isEmpty
    · rw [detect_platform, if_pos he] at h
      exact absurd h (by simp)
    · rw [detect_platform, if_neg he] at h
      simp only [Option.map_eq_some'] at h
      obtain ⟨pp, hfind, hp⟩ := h
      have hmem := List.mem_of_find?_eq_some hfind
      have hall : ∀ q ∈ PLATFORM_PATTERNS, q.1 ∈ NINE_PLATFORM_TAGS := by decide
      exact hp ▸ hall pp hmem
  · intro u v huv
    by_cases hu : u = []
    · have hv : v = [] := by
        have : lowerS v = [] := by rw [← huv, hu]; rfl
        simpa [lowerS] using this
      rw [hu, hv]
    · have hv : v ≠ [] := by
        intro hv
        apply hu
        have : lowerS u = [] := by rw [huv, hv]; rfl
        simpa [lowerS] using this
      rw [detect_platform, detect_platform,
        if_neg (by simp [List.isEmpty_iff, hu]),
        if_neg (by simp [List.isEmpty_iff, hv]), huv]

theorem detect_platform_total_and_case_invariant_witness :
    (detect_platform ("HTTPS://Foo.RentCafe.com/Apts".toList) =
        some ("rentcafe".toList) ∧
      "rentcafe".toList ∈ NINE_PLATFORM_TAGS) ∧
    (lowerS ("HTTPS://Foo.RentCafe.com/Apts".toList) =
        lowerS ("https://foo.rentcafe.com/apts".toList) ∧
      detect_platform ("HTTPS://Foo.RentCafe.com/Apts".toList) =
        detect_platform ("https://foo.rentcafe.com/apts".toList)) :=
  ⟨⟨by decide,
    detect_platform_total_and_case_invariant.1 ("HTTPS://Foo.RentCafe.com/Apts".toList)
      ("rentcafe".toList) (by decide)⟩,
   ⟨by decide,
    detect_platform_total_and_case_invariant.2.2 ("HTTPS://Foo.RentCafe.com/Apts".toList)
      ("https://foo.rentcafe.com/apts".toList) (by decide)⟩⟩

theorem pyGetOrEmptyStrip_lookup_safe (fields : List (Str × JPrim)) (k : Str)
    (h : primSafe (dictLookup fields k) = true) :
    pyGetOrEmptyStrip (dictLookup fields k) = Except.ok (fieldStrD fields k) := by
  rw [fieldStrD]
  cases hv : dictLookup fields k with
  | none => rfl
  | some p =>
    cases p with
    | str s => rfl
    | num n =>
      rw [hv] at h
      simp only [primSafe, decide_eq_true_eq] at h
      simp [pyGetOrEmptyStrip, h]
    | boolean b =>
      rw [hv] at h
      simp only [primSafe, Bool.not_eq_true'] at h
      simp [pyGetOrEmptyStrip, h]
    | null => rfl

theorem llmFilterItem_safe (item : JItem) (hs : itemSafe item = true) :
    llmFilterItem item = Except.ok (if llmKeeps item then some item else none) := by
  cases item with
  | nonDict => rfl
  | dict fields =>
    simp only [itemSafe, Bool.and_eq_true] at hs
    obtain ⟨⟨h1, h2⟩, h3⟩ := hs
    rw [llmFilterItem]
    rw [pyGetOrEmptyStrip_lookup_safe fields _ h1,
      pyGetOrEmptyStrip_lookup_safe fields _ h2,
      pyGetOrEmptyStrip_lookup_safe fields _ h3]
    simp only [llmKeeps]
    simp only [Bind.bind, Except.bind]
    rcases Bool.eq_false_or_eq_true
        (List.isEmpty (fieldStrD fields ("unit_number".toList))) with hu | hu <;>
      rcases Bool.eq_false_or_eq_true
          (List.isEmpty (fieldStrD fields ("bed_type".toList))) with hb | hb <;>
        rcases Bool.eq_false_or_eq_true
            (RENT_PLACEHOLDER_VALUES.contains
              (lowerS (fieldStrD fields ("rent".toList)))) with hr | hr <;>
          simp only [hu, hb, hr] <;> simp

theorem llmPostFilter_safe :
    ∀ items : List JItem, (∀ it ∈ items, itemSafe it = true) →
      llmPostFilter items = Except.ok (items.filter llmKeeps) := by
  intro items h
  induction items with
  | nil => rfl
  | cons a t ih =>
    have ha := h a (by simp)
    have ht : ∀ it ∈ t, itemSafe it = true := fun it hit => h it (by simp [hit])
    rw [llmPostFilter, llmFilterItem_safe a ha]
    by_cases hk : llmKeeps a = true
    · rw [if_pos hk]
      rw [ih ht]
      simp [List.filter_cons, hk, Except.map]
    · rw [if_neg hk]
      rw [ih ht]
      simp [List.filter_cons, hk]

/-- Counterexample to claim C8 as stated: the generative fallback does
raise on one kind of malformed output.  A parsed record whose rent field is
a (truthy) number makes the or-strip expression call .strip on an int,
raising AttributeError instead of being filtered. -/
theorem llm_post_filter_attribute_error :
    llmParseResult (Except.ok (JVal.list [JItem.dict
      [("unit_number".toList, JPrim.str ("101".toList)),
       ("bed_type".toList, JPrim.str ("1BR".toList)),
       ("rent".toList, JPrim.num 5)]])) = Except.error "AttributeError" := by
  rfl

/-- Claim C8, amended: content that fails to parse as JSON, or parses to a
non-list, yields the empty record list without raising; over a parsed list
whose record fields hold string or falsy values (the declared schema), the
post-filter removes exactly the records whose stripped rent is
(case-insensitively) in the placeholder set or whose stripped unit_number
or bed_type is blank — but a record carrying a truthy non-string field
value raises AttributeError instead. -/
theorem llm_output_parse_and_post_filter :
    (∀ e : String, llmParseResult (Except.error e) = Except.ok []) ∧
    llmParseResult (Except.ok JVal.nonList) = Except.ok [] ∧
    (∀ items : List JItem, (∀ it ∈ items, itemSafe it = true) →
      llmParseResult (Except.ok (JVal.list items)) = Except.ok (items.filter llmKeeps)) := by
  refine ⟨fun e => rfl, rfl, ?_⟩
  intro items h
  exact llmPostFilter_safe items h

theorem llm_output_parse_and_post_filter_witness :
    (∀ it ∈ llmItemsW, itemSafe it = true) ∧
    llmParseResult (Except.ok (JVal.list llmItemsW)) =
      Except.ok (llmItemsW.filter llmKeeps) ∧
    llmItemsW.filter llmKeeps =
      [JItem.dict [("unit_number".toList, JPrim.str ("101".toList)),
                   ("bed_type".toList, JPrim.str ("1BR".toList)),
                   ("rent".toList, JPrim.str ("$1,500".toList))]] :=
  ⟨by decide,
   llm_output_parse_and_post_filter.2.2 llmItemsW (by decide),
   by decide⟩

theorem bestAux_characterization :
    ∀ (cs : List (Str × Nat)) (b0 : Option Str) (s0 : Nat),
      (bestAux (b0, s0) cs = (b0, s0) ∧ ∀ c ∈ cs, c.2 ≤ s0) ∨
      (∃ i : Fin cs.length,
        bestAux (b0, s0) cs = (some (cs.get i).1, (cs.get i).2) ∧
        s0 < (cs.get i).2 ∧
        (∀ j : Fin cs.length, (cs.get j).2 ≤ (cs.get i).2) ∧
        (∀ j : Fin cs.length, (j : Nat) < (i : Nat) → (cs.get j).2 < (cs.get i).2)) := by
  intro cs
  induction cs with
  | nil =>
    intro b0 s0
    left
    exact ⟨rfl, by simp⟩
  | cons c t ih =>
    intro b0 s0
    rw [bestAux]
    by_cases hc : c.2 > s0
    · rw [if_pos hc]
      rcases ih (some c.1) c.2 with ⟨heq, hall⟩ | ⟨i, heq, hgt, hmax, hfirst⟩
      · right
        refine ⟨⟨0, Nat.succ_pos _⟩, heq, hc, ?_, ?_⟩
        · intro j
          rcases j with ⟨jv, hj⟩
          cases jv with
          | zero => exact le_refl _
          | succ n =>
            exact hall (t.get ⟨n, Nat.lt_of_succ_lt_succ hj⟩) (List.get_mem t n _)
        · intro j hj
          exact absurd hj (Nat.not_lt_zero _)
      · right
        refine ⟨⟨i.1 + 1, Nat.succ_lt_succ i.2⟩, heq, lt_trans hc hgt, ?_, ?_⟩
        · intro j
          rcases j with ⟨jv, hj⟩
          cases jv with
          | zero => exact le_of_lt hgt
          | succ n => exact hmax ⟨n, Nat.lt_of_succ_lt_succ hj⟩
        · intro j hj
          rcases j with ⟨jv, hjlen⟩
          cases jv with
          | zero => exact hgt
          | succ n =>
            exact hfirst ⟨n, Nat.lt_of_succ_lt_succ hjlen⟩
              (Nat.lt_of_succ_lt_succ hj)
    · rw [if_neg hc]
      rcases ih b0 s0 with ⟨heq, hall⟩ | ⟨i, heq, hgt, hmax, hfirst⟩
      · left
        refine ⟨heq, ?_⟩
        intro x hx
        rcases List.mem_cons.mp hx with rfl | hxt
        · exact Nat.le_of_not_lt hc
        · exact hall x hxt
      · right
        refine ⟨⟨i.1 + 1, Nat.succ_lt_succ i.2⟩, heq, hgt, ?_, ?_⟩
        · intro j
          rcases j with ⟨jv, hj⟩
          cases jv with
          | zero => exact le_of_lt (lt_of_le_of_lt (Nat.le_of_not_lt hc) hgt)
          | succ n => exact hmax ⟨n, Nat.lt_of_succ_lt_succ hj⟩
        · intro j hj
          rcases j with ⟨jv, hjlen⟩
          cases jv with
          | zero => exact lt_of_le_of_lt (Nat.le_of_not_lt hc) hgt
          | succ n =>
            exact hfirst ⟨n, Nat.lt_of_succ_lt_succ hjlen⟩
              (Nat.lt_of_succ_lt_succ hj)

theorem selectBest_none_iff (cs : List (Str × Nat)) :
    selectBest cs = none ↔ ∀ c ∈ cs, c.2 = 0 := by
  rcases bestAux_characterization cs none 0 with ⟨heq, hall⟩ | ⟨i, heq, hgt, hmax, _⟩
  · constructor
    · intro _ c hcm
      exact Nat.le_zero.mp (hall c hcm)
    · intro _
      rw [selectBest, heq]
  · constructor
    · intro hnone
      rw [selectBest, heq] at hnone
      exact absurd hnone (by simp)
    · intro hz
      exfalso
      have := hz (cs.get i) (List.get_mem cs i.1 i.2)
      omega

theorem selectBest_some_spec (cs : List (Str × Nat)) (h : Str)
    (hsome : selectBest cs = some h) :
    ∃ i : Fin cs.length, (cs.get i).1 = h ∧ 0 < (cs.get i).2 ∧
      (∀ j : Fin cs.length, (cs.get j).2 ≤ (cs.get i).2) ∧
      (∀ j : Fin cs.length, (j : Nat) < (i : Nat) → (cs.get j).2 < (cs.get i).2) := by
  rcases bestAux_characterization cs none 0 with ⟨heq, _⟩ | ⟨i, heq, hgt, hmax, hfirst⟩
  · rw [selectBest, heq] at hsome
    exact absurd hsome (by simp)
  · rw [selectBest, heq] at hsome
    simp only [Option.some.injEq] at hsome
    exact ⟨i, hsome, hgt, hmax, hfirst⟩

theorem findAvailabilityStep2_fold (resolve : Str → Str) (probed probedPaths : List Str) :
    ∀ (links : List Link) (acc : Option Str × Nat),
      links.foldl
        (fun acc l =>
          match candidateOf resolve probed probedPaths l with
          | none => acc
          | some c => if c.2 > acc.2 then (some c.1, c.2) else acc) acc =
      bestAux acc (links.filterMap (candidateOf resolve probed probedPaths)) := by
  intro links
  induction links with
  | nil => intro acc; rfl
  | cons l t ih =>
    intro acc
    rw [List.foldl_cons, List.filterMap_cons]
    cases hc : candidateOf resolve probed probedPaths l with
    | none =>
      simp only [hc]
      exact ih acc
    | some c =>
      simp only [hc]
      rw [bestAux]
      exact ih _

theorem findAvailabilityStep2_eq (resolve : Str → Str) (probed probedPaths : List Str)
    (links : List Link) :
    findAvailabilityStep2 resolve probed probedPaths links =
      selectBest (links.filterMap (candidateOf resolve probed probedPaths)) := by
  rw [findAvailabilityStep2, selectBest, findAvailabilityStep2_fold]

/-- Claim C7: the shared link-scoring heuristic returns score 0 whenever
any skip keyword occurs in the href or text, regardless of availability
keywords; among the candidate links surviving the loop filters the highest
score wins with ties broken by first-seen order, and when the best score is
0 no link is selected (none is returned). -/
theorem link_scoring_skip_and_best_selection :
    (∀ href text : Str,
        (∃ kw ∈ SKIP_KEYWORDS,
          containsS (lowerS href) kw = true ∨ containsS (lowerS text) kw = true) →
        score_link href text = 0) ∧
    (∀ (resolve : Str → Str) (probed probedPaths : List Str) (links : List Link),
        findAvailabilityStep2 resolve probed probedPaths links = none ↔
          ∀ c ∈ links.filterMap (candidateOf resolve probed probedPaths), c.2 = 0) ∧
    (∀ (resolve : Str → Str) (probed probedPaths : List Str) (links : List Link) (h : Str),
        findAvailabilityStep2 resolve probed probedPaths links = some h →
        ∃ i : Fin (links.filterMap (candidateOf resolve probed probedPaths)).length,
          ((links.filterMap (candidateOf resolve probed probedPaths)).get i).1 = h ∧
          0 < ((links.filterMap (candidateOf resolve probed probedPaths)).get i).2 ∧
          (∀ j : Fin (links.filterMap (candidateOf resolve probed probedPaths)).length,
            ((links.filterMap (candidateOf resolve probed probedPaths)).get j).2 ≤
              ((links.filterMap (candidateOf resolve probed probedPaths)).get i).2) ∧
          (∀ j : Fin (links.filterMap (candidateOf resolve probed probedPaths)).length,
            (j : Nat) < (i : Nat) →
            ((links.filterMap (candidateOf resolve probed probedPaths)).get j).2 <
              ((links.filterMap (candidateOf resolve probed probedPaths)).get i).2)) := by
  refine ⟨?_, ?_, ?_⟩
  · rintro href text ⟨kw, hmem, hor⟩
    have hany : SKIP_KEYWORDS.any
        (fun kw => containsS (lowerS href) kw || containsS (lowerS text) kw) = true :=
      List.any_eq_true.mpr ⟨kw, hmem, by rcases hor with h | h <;> simp [h]⟩
    simp only [score_link]
    simp [hany]
  · intro resolve probed probedPaths links
    rw [findAvailabilityStep2_eq]
    exact selectBest_none_iff _
  · intro resolve probed probedPaths links h hsome
    rw [findAvailabilityStep2_eq] at hsome
    exact selectBest_some_spec _ h hsome

theorem link_scoring_skip_and_best_selection_witness :
    score_link ("/blog/floorplans".toList) ("Floor Plans".toList) = 0 ∧
    findAvailabilityStep2 (fun s => s) [] [] linksW =
      some ("/floorplans-and-pricing".toList) ∧
    ∃ i : Fin (linksW.filterMap (candidateOf (fun s => s) [] [])).length,
      ((linksW.filterMap (candidateOf (fun s => s) [] [])).get i).1 =
        "/floorplans-and-pricing".toList ∧
      0 < ((linksW.filterMap (candidateOf (fun s => s) [] [])).get i).2 ∧
      (∀ j : Fin (linksW.filterMap (candidateOf (fun s => s) [] [])).length,
        ((linksW.filterMap (candidateOf (fun s => s) [] [])).get j).2 ≤
          ((linksW.filterMap (candidateOf (fun s => s) [] [])).get i).2) ∧
      (∀ j : Fin (linksW.filterMap (candidateOf (fun s => s) [] [])).length,
        (j : Nat) < (i : Nat) →
        ((linksW.filterMap (candidateOf (fun s => s) [] [])).get j).2 <
          ((linksW.filterMap (candidateOf (fun s => s) [] [])).get i).2) :=
  ⟨link_scoring_skip_and_best_selection.1 ("/blog/floorplans".toList)
      ("Floor Plans".toList) ⟨"blog".toList, by decide, Or.inl (by decide)⟩,
   by decide,
   link_scoring_skip_and_best_selection.2.2 (fun s => s) [] [] linksW
     ("/floorplans-and-pricing".toList) (by decide)⟩

theorem isDigit_digitChar (d : Nat) (hd : d < 10) : isDigitC (digitChar d) = true := by
  interval_cases d <;> decide

theorem toNat_digitChar (d : Nat) (hd : d < 10) : (digitChar d).toNat = 48 + d := by
  interval_cases d <;> decide

theorem digit_bounds (c : Char) (h : isDigitC c = true) : 48 ≤ c.toNat ∧ c.toNat ≤ 57 := by
  simp only [isDigitC, Bool.and_eq_true, decide_eq_true_eq] at h
  exact h

theorem char_ne_of_toNat_ne (c x : Char) (h : c.toNat ≠ x.toNat) : c ≠ x :=
  fun he => h (congrArg Char.toNat he)

theorem isSpaceC_false_of_digit (c : Char) (h : isDigitC c = true) : isSpaceC c = false := by
  have hb := digit_bounds c h
  cases hsp : isSpaceC c with
  | false => rfl
  | true =>
    exfalso
    simp only [isSpaceC, Bool.or_eq_true, beq_iff_eq] at hsp
    have h32 : (' ').toNat = 32 := by decide
    have h9 : ('\t').toNat = 9 := by decide
    have h10 : ('\n').toNat = 10 := by decide
    have h13 : ('\r').toNat = 13 := by decide
    rcases hsp with ((((h | h) | h) | h) | h) | h
    · rw [h] at hb; omega
    · rw [h] at hb; omega
    · rw [h] at hb; omega
    · rw [h] at hb; omega
    · omega
    · omega

theorem charLower_digit (c : Char) (h : isDigitC c = true) : charLower c = c := by
  have hb := digit_bounds c h
  rw [charLower, if_neg (by omega)]

theorem rentPlain_of_digit (c : Char) (h : isDigitC c = true) : rentPlainChar c = true := by
  simp [rentPlainChar, h]

theorem rentPlain_not_space (c : Char) (h : rentPlainChar c = true) : isSpaceC c = false := by
  simp only [rentPlainChar, Bool.or_eq_true, beq_iff_eq] at h
  rcases h with ((((((hd | rfl) | rfl) | rfl) | rfl) | rfl) | rfl)
  · exact isSpaceC_false_of_digit c hd
  all_goals decide

theorem rentPlain_lower_ne_s (c : Char) (h : rentPlainChar c = true) : charLower c ≠ 's' := by
  simp only [rentPlainChar, Bool.or_eq_true, beq_iff_eq] at h
  rcases h with ((((((hd | rfl) | rfl) | rfl) | rfl) | rfl) | rfl)
  · have hb := digit_bounds c hd
    rw [charLower_digit c hd]
    have hs : ('s').toNat = 115 := by decide
    exact char_ne_of_toNat_ne c 's' (by omega)
  all_goals decide

theorem dropWhile_eq_self_of_head (p : Char → Bool) (s : Str)
    (h : ∀ c ∈ s, p c = false) : s.dropWhile p = s := by
  cases s with
  | nil => rfl
  | cons a t => rw [List.dropWhile_cons, if_neg (by simp [h a (by simp)])]

theorem stripS_of_no_space (s : Str) (h : ∀ c ∈ s, isSpaceC c = false) : stripS s = s := by
  rw [stripS, dropWhile_eq_self_of_head _ _ h,
    dropWhile_eq_self_of_head _ _ (fun c hc => h c (List.mem_reverse.mp hc)),
    List.reverse_reverse]

theorem startsWithS_append_self : ∀ (pat s : Str), startsWithS (pat ++ s) pat = true := by
  intro pat
  induction pat with
  | nil => intro s; cases s <;> rfl
  | cons p pr ih => intro s; simp [startsWithS, ih s]

theorem startsWithS_cons_ne (c p : Char) (s pr : Str) (h : c ≠ p) :
    startsWithS (c :: s) (p :: pr) = false := by
  simp [startsWithS, h]

theorem mem_of_startsWithS : ∀ (s pat : Str), startsWithS s pat = true → ∀ x ∈ pat, x ∈ s := by
  intro s
  induction s with
  | nil =>
    intro pat h x hx
    cases pat with
    | nil => simp at hx
    | cons p pr => exact absurd h (by simp [startsWithS])
  | cons a t ih =>
    intro pat h x hx
    cases pat with
    | nil => simp at hx
    | cons p pr =>
      simp only [startsWithS, Bool.and_eq_true, beq_iff_eq] at h
      rcases List.mem_cons.mp hx with rfl | hxpr
      · rw [← h.1]; exact List.mem_cons_self a t
      · exact List.mem_cons_of_mem a (ih pr h.2 x hxpr)

theorem mem_of_containsS : ∀ (s pat : Str), containsS s pat = true → ∀ x ∈ pat, x ∈ s := by
  intro s
  induction s with
  | nil =>
    intro pat h x hx
    simp only [containsS] at h
    rw [List.isEmpty_iff.mp h] at hx
    simp at hx
  | cons a t ih =>
    intro pat h x hx
    simp only [containsS, Bool.or_eq_true] at h
    rcases h with h | h
    · exact mem_of_startsWithS _ _ h x hx
    · exact List.mem_cons_of_mem a (ih pat h x hx)

theorem containsS_false_of_not_mem (s pat : Str) (x : Char) (hx : x ∈ pat) (hnx : x ∉ s) :
    containsS s pat = false := by
  cases hcon : containsS s pat with
  | false => rfl
  | true => exact absurd (mem_of_containsS s pat hcon x hx) hnx

theorem range_seps_find_none (s : Str) (hsp : ' ' ∉ s) (hda : '-' ∉ s) (hen : '–' ∉ s) :
    RENT_RANGE_SEPS.find? (fun sep => containsS s sep) = none := by
  rw [List.find?_eq_none]
  intro sep hsep
  simp only [RENT_RANGE_SEPS, List.mem_cons, List.not_mem_nil, or_false] at hsep
  rcases hsep with rfl | rfl | rfl | rfl
  · rw [containsS_false_of_not_mem s _ ' ' (by decide) hsp]; simp
  · rw [containsS_false_of_not_mem s _ ' ' (by decide) hsp]; simp
  · rw [containsS_false_of_not_mem s _ '–' (by decide) hen]; simp
  · rw [containsS_false_of_not_mem s _ '-' (by decide) hda]; simp

theorem rentPlain_no_specials (s : Str) (h : ∀ x ∈ s, rentPlainChar x = true) :
    (∀ x ∈ s, isSpaceC x = false) ∧ ' ' ∉ s ∧ '-' ∉ s ∧ '–' ∉ s := by
  refine ⟨fun x hx => rentPlain_not_space x (h x hx), ?_, ?_, ?_⟩
  all_goals intro hm; have hh := h _ hm; revert hh; decide

theorem startsWith_startingat_false (s : Str) (h : ∀ c ∈ s, rentPlainChar c = true) :
    startsWithS (lowerS s) ("starting at".toList) = false := by
  cases s with
  | nil => decide
  | cons a t =>
    have hla := rentPlain_lower_ne_s a (h a (by simp))
    show startsWithS (charLower a :: lowerS t) ("starting at".toList) = false
    have hpat : ("starting at".toList) = 's' :: ("tarting at".toList) := rfl
    rw [hpat]
    exact startsWithS_cons_ne _ _ _ _ hla

theorem replaceGo_skip (pat rep : Str) :
    ∀ (t s : Str), replaceGo pat rep (t ++ s) t.length = replaceGo pat rep s 0 := by
  intro t
  induction t with
  | nil => intro s; rfl
  | cons a t2 ih =>
    intro s
    rw [List.cons_append, List.length_cons]
    exact ih s

theorem replaceGo_head_match (pat rep s : Str) (hne : pat ≠ []) :
    replaceGo pat rep (pat ++ s) 0 = rep ++ replaceGo pat rep s 0 := by
  cases pat with
  | nil => exact absurd rfl hne
  | cons p pr =>
    have hcond : (startsWithS (p :: (pr ++ s)) (p :: pr) && !(p :: pr).isEmpty) = true := by
      have h1 := startsWithS_append_self (p :: pr) s
      rw [List.cons_append] at h1
      simp [h1]
    rw [List.cons_append]
    rw [replaceGo, if_pos hcond]
    have hlen : (p :: pr).length - 1 = pr.length := by simp
    rw [hlen, replaceGo_skip]

theorem replaceGo_cons_ne (p : Char) (pr rep : Str) (c : Char) (s : Str) (h : c ≠ p) :
    replaceGo (p :: pr) rep (c :: s) 0 = c :: replaceGo (p :: pr) rep s 0 := by
  have hcond : ¬ ((startsWithS (c :: s) (p :: pr) && !(p :: pr).isEmpty) = true) := by
    rw [startsWithS_cons_ne c p s pr h]
    simp
  rw [replaceGo, if_neg hcond]

theorem replaceGo_not_head (p : Char) (pr rep : Str) :
    ∀ s : Str, p ∉ s → replaceGo (p :: pr) rep s 0 = s := by
  intro s
  induction s with
  | nil => intro _; rfl
  | cons a t ih =>
    intro h
    have ha : a ≠ p := fun he => h (he ▸ List.mem_cons_self a t)
    rw [replaceGo_cons_ne p pr rep a t ha,
      ih (fun hm => h (List.mem_cons_of_mem a hm))]

theorem replaceGo_seg (p : Char) (pr rep : Str) :
    ∀ (t s : Str), (∀ c ∈ t, c ≠ p) →
      replaceGo (p :: pr) rep (t ++ s) 0 = t ++ replaceGo (p :: pr) rep s 0 := by
  intro t
  induction t with
  | nil => intro s _; rfl
  | cons a t2 ih =>
    intro s h
    rw [List.cons_append, replaceGo_cons_ne p pr rep a _ (h a (by simp)),
      ih s (fun c hc => h c (by simp [hc])), List.cons_append]

theorem foldl_digits_eq : ∀ (ds : List Nat) (a : Nat), (∀ d ∈ ds, d < 10) →
    List.foldl (fun acc c => acc * 10 + (c.toNat - 48)) a (ds.map digitChar) =
    List.foldl (fun acc d => acc * 10 + d) a ds := by
  intro ds
  induction ds with
  | nil => intro a _; rfl
  | cons d t ih =>
    intro a h
    rw [List.map_cons, List.foldl_cons, List.foldl_cons,
      toNat_digitChar d (h d (by simp))]
    have hd : 48 + d - 48 = d := by omega
    rw [hd]
    exact ih _ (fun x hx => h x (by simp [hx]))

theorem foldl_base_reverse : ∀ (L : List Nat) (a : Nat),
    List.foldl (fun acc d => acc * 10 + d) a L.reverse =
      a * 10 ^ L.length + Nat.ofDigits 10 L := by
  intro L
  induction L with
  | nil => intro a; simp [Nat.ofDigits]
  | cons x t ih =>
    intro a
    rw [List.reverse_cons, List.foldl_append, ih]
    simp only [List.foldl_cons, List.foldl_nil, Nat.ofDigits_cons, List.length_cons]
    ring

theorem parseNat_renderNat (n : Nat) : parseNat (renderNat n) = n := by
  rw [renderNat, parseNat,
    foldl_digits_eq _ _
      (fun d hd => Nat.digits_lt_base (by norm_num) (List.mem_reverse.mp hd)),
    foldl_base_reverse]
  simp [Nat.ofDigits_digits]

theorem parseNat_pad2 (m : Nat) (h : m < 100) : parseNat (pad2 m) = m := by
  rw [pad2, parseNat]
  simp only [List.foldl_cons, List.foldl_nil]
  rw [toNat_digitChar _ (by omega), toNat_digitChar _ (by omega)]
  omega

theorem parseNat_thousands (d : Nat) (h : d ≤ 9999) :
    parseNat (digitChar (d / 1000) :: pad3 (d % 1000)) = d := by
  rw [pad3, parseNat]
  simp only [List.foldl_cons, List.foldl_nil]
  rw [toNat_digitChar _ (by omega), toNat_digitChar _ (by omega),
    toNat_digitChar _ (by omega), toNat_digitChar _ (by omega)]
  omega

theorem takeWhile_all_of (p : Char → Bool) : ∀ s : Str, (∀ c ∈ s, p c = true) →
    s.takeWhile p = s ∧ s.dropWhile p = [] := by
  intro s
  induction s with
  | nil => intro _; exact ⟨rfl, rfl⟩
  | cons a t ih =>
    intro h
    have ha := h a (by simp)
    obtain ⟨h1, h2⟩ := ih (fun c hc => h c (by simp [hc]))
    rw [List.takeWhile_cons, List.dropWhile_cons]
    simp [ha, h1, h2]

theorem takeWhile_append_stop (p : Char → Bool) (y : Char) (hy : p y = false) :
    ∀ (l₁ l₂ : Str), (∀ c ∈ l₁, p c = true) →
      (l₁ ++ y :: l₂).takeWhile p = l₁ ∧ (l₁ ++ y :: l₂).dropWhile p = y :: l₂ := by
  intro l₁
  induction l₁ with
  | nil =>
    intro l₂ _
    simp [List.takeWhile_cons, List.dropWhile_cons, hy]
  | cons a t ih =>
    intro l₂ h
    have ha := h a (by simp)
    obtain ⟨h1, h2⟩ := ih l₂ (fun c hc => h c (by simp [hc]))
    rw [List.cons_append, List.takeWhile_cons, List.dropWhile_cons]
    simp [ha, h1, h2]

theorem pyFloat_digits (s : Str) (hne : s ≠ []) (hall : ∀ c ∈ s, isDigitC c = true) :
    pyFloat s = some ⟨parseNat s, 0⟩ := by
  obtain ⟨h1, h2⟩ := takeWhile_all_of isDigitC s hall
  simp only [pyFloat, h1, h2]
  rw [if_neg (by simp [List.isEmpty_iff, hne])]

theorem pyFloat_digits_dot (s₁ s₂ : Str) (h₁ : ∀ c ∈ s₁, isDigitC c = true)
    (h₂ : ∀ c ∈ s₂, isDigitC c = true) (hne : s₁ ≠ []) :
    pyFloat (s₁ ++ '.' :: s₂) =
      some ⟨parseNat s₁ * 10 ^ s₂.length + parseNat s₂, s₂.length⟩ := by
  have hdot : isDigitC '.' = false := by decide
  obtain ⟨ht, hd⟩ := takeWhile_append_stop isDigitC '.' hdot s₁ s₂ h₁
  simp only [pyFloat, ht, hd, if_true, eq_self_iff_true]
  rw [if_pos]
  simp only [Bool.and_eq_true, List.all_eq_true, Bool.not_eq_true',
    Bool.and_eq_false_iff, List.isEmpty_iff]
  exact ⟨h₂, Or.inl (by simpa using hne)⟩

theorem roundHalfEven_exact (x b : Nat) (hb : 0 < b) :
    roundHalfEven (x * b) b = x := by
  simp only [roundHalfEven]
  rw [Nat.mul_div_cancel x hb, Nat.mul_mod_left x b]
  rw [if_pos (by omega)]

theorem digit_ne_char (c : Char) (h : isDigitC c = true) (x : Char)
    (hx : isDigitC x = false) : c ≠ x := by
  intro he
  rw [he] at h
  simp [h] at hx

theorem mem_renderNat (n : Nat) (c : Char) (hc : c ∈ renderNat n) : isDigitC c = true := by
  rw [renderNat] at hc
  obtain ⟨d, hd, rfl⟩ := List.mem_map.mp hc
  exact isDigit_digitChar d (Nat.digits_lt_base (by norm_num) (List.mem_reverse.mp hd))

theorem mem_pad2_digit (m : Nat) (hm : m < 100) : ∀ c ∈ pad2 m, isDigitC c = true := by
  intro c hc
  simp only [pad2, List.mem_cons, List.not_mem_nil, or_false] at hc
  rcases hc with rfl | rfl
  · exact isDigit_digitChar _ (by omega)
  · exact isDigit_digitChar _ (by omega)

theorem mem_pad3_digit (m : Nat) (hm : m < 1000) : ∀ c ∈ pad3 m, isDigitC c = true := by
  intro c hc
  simp only [pad3, List.mem_cons, List.not_mem_nil, or_false] at hc
  rcases hc with rfl | rfl | rfl
  · exact isDigit_digitChar _ (by omega)
  · exact isDigit_digitChar _ (by omega)
  · exact isDigit_digitChar _ (by omega)

theorem mem_core_dot (m k : Nat) (hm : m < 1000) (hk : k < 100) :
    ∀ x ∈ pad3 m ++ '.' :: pad2 k, isDigitC x = true ∨ x = '.' := by
  intro x hx
  rcases List.mem_append.mp hx with h | h
  · exact Or.inl (mem_pad3_digit m hm x h)
  · rcases List.mem_cons.mp h with rfl | h
    · exact Or.inr rfl
    · exact Or.inl (mem_pad2_digit k hk x h)

theorem mem_core2 (d c : Nat) (hd : d ≤ 9999) (hc : c < 100) :
    ∀ x ∈ digitChar (d / 1000) :: (pad3 (d % 1000) ++ '.' :: pad2 c),
      isDigitC x = true ∨ x = '.' := by
  intro x hx
  rcases List.mem_cons.mp hx with rfl | h
  · exact Or.inl (isDigit_digitChar _ (by omega))
  · exact mem_core_dot _ _ (by omega) hc x h

theorem mem_commaCore (d c : Nat) (hd : d ≤ 9999) (hc : c < 100) :
    ∀ x ∈ commaThousands d ++ '.' :: pad2 c,
      isDigitC x = true ∨ x = ',' ∨ x = '.' := by
  intro x hx
  rcases List.mem_append.mp hx with h | h
  · simp only [commaThousands, List.mem_cons] at h
    rcases h with rfl | rfl | h
    · exact Or.inl (isDigit_digitChar _ (by omega))
    · exact Or.inr (Or.inl rfl)
    · exact Or.inl (mem_pad3_digit _ (by omega) x h)
  · rcases List.mem_cons.mp h with rfl | h
    · exact Or.inr (Or.inr rfl)
    · exact Or.inl (mem_pad2_digit c hc x h)

theorem mem_commaThousands (d : Nat) (hd : d ≤ 9999) :
    ∀ x ∈ commaThousands d, isDigitC x = true ∨ x = ',' := by
  intro x hx
  simp only [commaThousands, List.mem_cons] at hx
  rcases hx with rfl | rfl | h
  · exact Or.inl (isDigit_digitChar _ (by omega))
  · exact Or.inr rfl
  · exact Or.inl (mem_pad3_digit _ (by omega) x h)

theorem mem_rentShapePerMo (d : Nat) :
    ∀ x ∈ rentShapePerMo d, isDigitC x = true ∨ x = '/' ∨ x = 'm' ∨ x = 'o' := by
  intro x hx
  rcases List.mem_append.mp hx with h | h
  · exact Or.inl (mem_renderNat d x h)
  · have : x ∈ ('/' :: ('m' :: ('o' :: []))) := h
    simp only [List.mem_cons, List.not_mem_nil, or_false] at this
    rcases this with rfl | rfl | rfl
    · exact Or.inr (Or.inl rfl)
    · exact Or.inr (Or.inr (Or.inl rfl))
    · exact Or.inr (Or.inr (Or.inr rfl))

theorem plain_rentShapeDollar (d c : Nat) (hd : d ≤ 9999) (hc : c < 100) :
    ∀ x ∈ rentShapeDollar d c, rentPlainChar x = true := by
  intro x hx
  rcases List.mem_cons.mp hx with rfl | h
  · decide
  · rcases mem_commaCore d c hd hc x h with h | rfl | rfl
    · exact rentPlain_of_digit x h
    · decide
    · decide

theorem normalize_rent_dollar (d c : Nat) (h1 : 1000 ≤ d) (h2 : d ≤ 9999) (hc : c < 100) :
    normalize_rent (rentShapeDollar d c) = some ((100 * d + c : Nat) : Int) := by
  have hcore2mem := mem_core2 d c h2 hc
  have hcore2plain : ∀ x ∈ digitChar (d / 1000) :: (pad3 (d % 1000) ++ '.' :: pad2 c),
      rentPlainChar x = true := by
    intro x hx
    rcases hcore2mem x hx with h | rfl
    · exact rentPlain_of_digit x h
    · decide
  have hshapeplain := plain_rentShapeDollar d c h2 hc
  obtain ⟨hns, _, _, _⟩ := rentPlain_no_specials _ hshapeplain
  obtain ⟨hns2, hsp2, hda2, hen2⟩ := rentPlain_no_specials _ hcore2plain
  have hstrip : stripS (rentShapeDollar d c) = rentShapeDollar d c :=
    stripS_of_no_space _ hns
  have hstart := startsWith_startingat_false _ hshapeplain
  have hd1 : isDigitC (digitChar (d / 1000)) = true := isDigit_digitChar _ (by omega)
  have hdollarnotin : '$' ∉ commaThousands d ++ '.' :: pad2 c := by
    intro hm
    rcases mem_commaCore d c h2 hc '$' hm with h | h | h
    · exact absurd h (by decide)
    · exact absurd h (by decide)
    · exact absurd h (by decide)
  have e1 : replaceS (rentShapeDollar d c) ("$".toList) [] =
      commaThousands d ++ '.' :: pad2 c := by
    show replaceGo ('$' :: []) []
      (('$' :: []) ++ (commaThousands d ++ '.' :: pad2 c)) 0 = _
    rw [replaceGo_head_match _ _ _ (by simp), List.nil_append]
    exact replaceGo_not_head '$' [] [] _ hdollarnotin
  have hcommanotin : ',' ∉ pad3 (d % 1000) ++ '.' :: pad2 c := by
    intro hm
    rcases mem_core_dot _ _ (by omega) hc ',' hm with h | h
    · exact absurd h (by decide)
    · exact absurd h (by decide)
  have e2 : replaceS (commaThousands d ++ '.' :: pad2 c) (",".toList) [] =
      digitChar (d / 1000) :: (pad3 (d % 1000) ++ '.' :: pad2 c) := by
    show replaceGo (',' :: []) []
      (digitChar (d / 1000) :: (',' :: (pad3 (d % 1000) ++ '.' :: pad2 c))) 0 = _
    rw [replaceGo_cons_ne ',' [] [] _ _ (digit_ne_char _ hd1 ',' (by decide))]
    congr 1
    show replaceGo (',' :: []) []
      ((',' :: []) ++ (pad3 (d % 1000) ++ '.' :: pad2 c)) 0 = _
    rw [replaceGo_head_match _ _ _ (by simp), List.nil_append]
    exact replaceGo_not_head ',' [] [] _ hcommanotin
  have hslashnotin : '/' ∉ digitChar (d / 1000) :: (pad3 (d % 1000) ++ '.' :: pad2 c) := by
    intro hm
    rcases hcore2mem '/' hm with h | h
    · exact absurd h (by decide)
    · exact absurd h (by decide)
  have e3 : replaceS (digitChar (d / 1000) :: (pad3 (d % 1000) ++ '.' :: pad2 c))
      ("/mo".toList) [] =
      digitChar (d / 1000) :: (pad3 (d % 1000) ++ '.' :: pad2 c) :=
    replaceGo_not_head '/' ('m' :: ('o' :: [])) [] _ hslashnotin
  have hstrip2 : stripS (digitChar (d / 1000) :: (pad3 (d % 1000) ++ '.' :: pad2 c)) =
      digitChar (d / 1000) :: (pad3 (d % 1000) ++ '.' :: pad2 c) :=
    stripS_of_no_space _ hns2
  have hfind := range_seps_find_none _ hsp2 hda2 hen2
  have hfloat : pyFloat (digitChar (d / 1000) :: (pad3 (d % 1000) ++ '.' :: pad2 c)) =
      some ⟨parseNat (digitChar (d / 1000) :: pad3 (d % 1000)) * 10 ^ (pad2 c).length +
        parseNat (pad2 c), (pad2 c).length⟩ :=
    pyFloat_digits_dot (digitChar (d / 1000) :: pad3 (d % 1000)) (pad2 c)
      (fun x hx => by
        rcases List.mem_cons.mp hx with rfl | hx
        · exact hd1
        · exact mem_pad3_digit _ (by omega) x hx)
      (mem_pad2_digit c hc) (by simp)
  simp only [normalize_rent]
  rw [hstrip, hstart]
  simp only [Bool.false_eq_true, if_false]
  rw [e1, e2, e3, hstrip2, hfind, hfloat]
  rw [parseNat_thousands d h2, parseNat_pad2 c hc]
  show some ((roundHalfEven ((d * 10 ^ 2 + c) * 100) (10 ^ 2) : Nat) : Int) =
    some ((100 * d + c : Nat) : Int)
  have h100 : (10 : Nat) ^ 2 = 100 := by norm_num
  rw [h100, roundHalfEven_exact (d * 100 + c) 100 (by norm_num), Nat.mul_comm d 100]

theorem normalize_rent_comma (d : Nat) (h1 : 1000 ≤ d) (h2 : d ≤ 9999) :
    normalize_rent (rentShapeComma d) = some ((100 * d : Nat) : Int) := by
  have hshapeplain : ∀ x ∈ rentShapeComma d, rentPlainChar x = true := by
    intro x hx
    rcases mem_commaThousands d h2 x hx with h | rfl
    · exact rentPlain_of_digit x h
    · decide
  have hcoreplain : ∀ x ∈ digitChar (d / 1000) :: pad3 (d % 1000), rentPlainChar x = true := by
    intro x hx
    rcases List.mem_cons.mp hx with rfl | hx2
    · exact rentPlain_of_digit _ (isDigit_digitChar _ (by omega))
    · exact rentPlain_of_digit x (mem_pad3_digit _ (by omega) x hx2)
  obtain ⟨hns, _, _, _⟩ := rentPlain_no_specials _ hshapeplain
  obtain ⟨hns2, hsp2, hda2, hen2⟩ := rentPlain_no_specials _ hcoreplain
  have hstrip : stripS (rentShapeComma d) = rentShapeComma d := stripS_of_no_space _ hns
  have hstart := startsWith_startingat_false _ hshapeplain
  have hd1 : isDigitC (digitChar (d / 1000)) = true := isDigit_digitChar _ (by omega)
  have hdollarnotin : '$' ∉ rentShapeComma d := by
    intro hm
    rcases mem_commaThousands d h2 '$' hm with h | h
    · exact absurd h (by decide)
    · exact absurd h (by decide)
  have e1 : replaceS (rentShapeComma d) ("$".toList) [] = rentShapeComma d :=
    replaceGo_not_head '$' [] [] _ hdollarnotin
  have hcommanotin : ',' ∉ pad3 (d % 1000) := by
    intro hm
    exact absurd (mem_pad3_digit _ (by omega) ',' hm) (by decide)
  have e2 : replaceS (rentShapeComma d) (",".toList) [] =
      digitChar (d / 1000) :: pad3 (d % 1000) := by
    show replaceGo (',' :: []) []
      (digitChar (d / 1000) :: (',' :: pad3 (d % 1000))) 0 = _
    rw [replaceGo_cons_ne ',' [] [] _ _ (digit_ne_char _ hd1 ',' (by decide))]
    congr 1
    show replaceGo (',' :: []) [] ((',' :: []) ++ pad3 (d % 1000)) 0 = _
    rw [replaceGo_head_match _ _ _ (by simp), List.nil_append]
    exact replaceGo_not_head ',' [] [] _ hcommanotin
  have hslashnotin : '/' ∉ digitChar (d / 1000) :: pad3 (d % 1000) := by
    intro hm
    rcases List.mem_cons.mp hm with he | hm
    · exact absurd (he ▸ hd1) (by decide)
    · exact absurd (mem_pad3_digit _ (by omega) '/' hm) (by decide)
  have e3 : replaceS (digitChar (d / 1000) :: pad3 (d % 1000)) ("/mo".toList) [] =
      digitChar (d / 1000) :: pad3 (d % 1000) :=
    replaceGo_not_head '/' ('m' :: ('o' :: [])) [] _ hslashnotin
  have hstrip2 : stripS (digitChar (d / 1000) :: pad3 (d % 1000)) =
      digitChar (d / 1000) :: pad3 (d % 1000) := stripS_of_no_space _ hns2
  have hfind := range_seps_find_none _ hsp2 hda2 hen2
  have hfloat : pyFloat (digitChar (d / 1000) :: pad3 (d % 1000)) =
      some ⟨parseNat (digitChar (d / 1000) :: pad3 (d % 1000)), 0⟩ :=
    pyFloat_digits (digitChar (d / 1000) :: pad3 (d % 1000)) (by simp)
      (fun x hx => by
        rcases List.mem_cons.mp hx with rfl | hx2
        · exact hd1
        · exact mem_pad3_digit _ (by omega) x hx2)
  simp only [normalize_rent]
  rw [hstrip, hstart]
  simp only [Bool.false_eq_true, if_false]
  rw [e1, e2, e3, hstrip2, hfind, hfloat]
  rw [parseNat_thousands d h2]
  show some ((roundHalfEven (d * 100) (10 ^ 0) : Nat) : Int) =
    some ((100 * d : Nat) : Int)
  have hpow : (10 : Nat) ^ 0 = 1 := by norm_num
  rw [hpow]
  have hre : roundHalfEven (d * 100) 1 = d * 100 := by
    have := roundHalfEven_exact (d * 100) 1 (by norm_num)
    simpa using this
  rw [hre, Nat.mul_comm d 100]

theorem normalize_rent_permo (d : Nat) (h1 : 1 ≤ d) :
    normalize_rent (rentShapePerMo d) = some ((100 * d : Nat) : Int) := by
  have hshapeplain : ∀ x ∈ rentShapePerMo d, rentPlainChar x = true := by
    intro x hx
    rcases mem_rentShapePerMo d x hx with h | rfl | rfl | rfl
    · exact rentPlain_of_digit x h
    · decide
    · decide
    · decide
  have hcoreplain : ∀ x ∈ renderNat d, rentPlainChar x = true :=
    fun x hx => rentPlain_of_digit x (mem_renderNat d x hx)
  obtain ⟨hns, _, _, _⟩ := rentPlain_no_specials _ hshapeplain
  obtain ⟨hns2, hsp2, hda2, hen2⟩ := rentPlain_no_specials _ hcoreplain
  have hne : renderNat d ≠ [] := by
    rw [renderNat]
    intro h
    have hlen := congrArg List.length h
    simp only [List.length_map, List.length_reverse, List.length_nil] at hlen
    exact Nat.digits_ne_nil_iff_ne_zero.mpr (by omega) (List.length_eq_zero.mp hlen)
  have hstrip : stripS (rentShapePerMo d) = rentShapePerMo d := stripS_of_no_space _ hns
  have hstart := startsWith_startingat_false _ hshapeplain
  have hdollarnotin : '$' ∉ rentShapePerMo d := by
    intro hm
    rcases mem_rentShapePerMo d '$' hm with h | h | h | h
    · exact absurd h (by decide)
    · exact absurd h (by decide)
    · exact absurd h (by decide)
    · exact absurd h (by decide)
  have hcommanotin : ',' ∉ rentShapePerMo d := by
    intro hm
    rcases mem_rentShapePerMo d ',' hm with h | h | h | h
    · exact absurd h (by decide)
    · exact absurd h (by decide)
    · exact absurd h (by decide)
    · exact absurd h (by decide)
  have e1 : replaceS (rentShapePerMo d) ("$".toList) [] = rentShapePerMo d :=
    replaceGo_not_head '$' [] [] _ hdollarnotin
  have e2 : replaceS (rentShapePerMo d) (",".toList) [] = rentShapePerMo d :=
    replaceGo_not_head ',' [] [] _ hcommanotin
  have e3 : replaceS (rentShapePerMo d) ("/mo".toList) [] = renderNat d := by
    show replaceGo ('/' :: ('m' :: ('o' :: []))) []
      (renderNat d ++ ('/' :: ('m' :: ('o' :: [])))) 0 = _
    rw [replaceGo_seg '/' ('m' :: ('o' :: [])) [] (renderNat d) _
      (fun x hx => digit_ne_char x (mem_renderNat d x hx) '/' (by decide))]
    have htail : replaceGo ('/' :: ('m' :: ('o' :: []))) []
        ('/' :: ('m' :: ('o' :: []))) 0 = [] := by
      show replaceGo ('/' :: ('m' :: ('o' :: []))) []
        (('/' :: ('m' :: ('o' :: []))) ++ ([] : Str)) 0 = []
      rw [replaceGo_head_match _ _ _ (by simp), List.nil_append]
      rfl
    rw [htail, List.append_nil]
  have hstrip2 : stripS (renderNat d) = renderNat d := stripS_of_no_space _ hns2
  have hfind := range_seps_find_none _ hsp2 hda2 hen2
  have hfloat : pyFloat (renderNat d) = some ⟨parseNat (renderNat d), 0⟩ :=
    pyFloat_digits _ hne (fun x hx => mem_renderNat d x hx)
  simp only [normalize_rent]
  rw [hstrip, hstart]
  simp only [Bool.false_eq_true, if_false]
  rw [e1, e2, e3, hstrip2, hfind, hfloat]
  rw [parseNat_renderNat d]
  show some ((roundHalfEven (d * 100) (10 ^ 0) : Nat) : Int) =
    some ((100 * d : Nat) : Int)
  have hpow : (10 : Nat) ^ 0 = 1 := by norm_num
  rw [hpow]
  have hre : roundHalfEven (d * 100) 1 = d * 100 := by
    have := roundHalfEven_exact (d * 100) 1 (by norm_num)
    simpa using this
  rw [hre, Nat.mul_comm d 100]

theorem normalize_rent_bare (d : Nat) (h1 : 1 ≤ d) :
    normalize_rent (rentShapeBare d) = some ((100 * d : Nat) : Int) := by
  have hcoreplain : ∀ x ∈ renderNat d, rentPlainChar x = true :=
    fun x hx => rentPlain_of_digit x (mem_renderNat d x hx)
  obtain ⟨hns, hsp, hda, hen⟩ := rentPlain_no_specials _ hcoreplain
  have hne : renderNat d ≠ [] := by
    rw [renderNat]
    intro h
    have hlen := congrArg List.length h
    simp only [List.length_map, List.length_reverse, List.length_nil] at hlen
    exact Nat.digits_ne_nil_iff_ne_zero.mpr (by omega) (List.length_eq_zero.mp hlen)
  have hstrip : stripS (rentShapeBare d) = rentShapeBare d := stripS_of_no_space _ hns
  have hstart : startsWithS (lowerS (rentShapeBare d)) ("starting at".toList) = false :=
    startsWith_startingat_false (rentShapeBare d) hcoreplain
  have hdollarnotin : '$' ∉ renderNat d := by
    intro hm
    exact absurd (mem_renderNat d '$' hm) (by decide)
  have hcommanotin : ',' ∉ renderNat d := by
    intro hm
    exact absurd (mem_renderNat d ',' hm) (by decide)
  have hslashnotin : '/' ∉ renderNat d := by
    intro hm
    exact absurd (mem_renderNat d '/' hm) (by decide)
  have e1 : replaceS (rentShapeBare d) ("$".toList) [] = rentShapeBare d :=
    replaceGo_not_head '$' [] [] _ hdollarnotin
  have e2 : replaceS (rentShapeBare d) (",".toList) [] = rentShapeBare d :=
    replaceGo_not_head ',' [] [] _ hcommanotin
  have e3 : replaceS (rentShapeBare d) ("/mo".toList) [] = rentShapeBare d :=
    replaceGo_not_head '/' ('m' :: ('o' :: [])) [] _ hslashnotin
  have hfind := range_seps_find_none (rentShapeBare d) hsp hda hen
  have hfloat : pyFloat (rentShapeBare d) = some ⟨parseNat (renderNat d), 0⟩ :=
    pyFloat_digits _ hne (fun x hx => mem_renderNat d x hx)
  simp only [normalize_rent]
  rw [hstrip, hstart]
  simp only [Bool.false_eq_true, if_false]
  rw [e1, e2, e3, hstrip, hfind, hfloat]
  rw [parseNat_renderNat d]
  show some ((roundHalfEven (d * 100) (10 ^ 0) : Nat) : Int) =
    some ((100 * d : Nat) : Int)
  have hpow : (10 : Nat) ^ 0 = 1 := by norm_num
  rw [hpow]
  have hre : roundHalfEven (d * 100) 1 = d * 100 := by
    have := roundHalfEven_exact (d * 100) 1 (by norm_num)
    simpa using this
  rw [hre, Nat.mul_comm d 100]

/-- Below 2 ^ 53 binary64 rounding is the identity: every such integer is
exactly representable. -/
theorem roundTo53_small (p : Nat) (h0 : 0 < p) (h : p < 2 ^ 53) :
    roundTo53 p = p := by
  have he : excessBits p p = 0 := by
    cases p with
    | zero => omega
    | succ n =>
      have : n + 1 < 2 ^ 53 := h
      simp [excessBits]
      omega
  simp [roundTo53, he, Nat.mod_one, Nat.div_one]

/-- On the faithful envelope 100 * d < 2 ^ 53 the binary64 computation
round(float(s) * 100) on the bare integer input of value d returns exactly
100 * d, agreeing with the exact decimal model. -/
theorem pyFloatMul100Round_exact (d : Nat) (h0 : 0 < d)
    (h : 100 * d < 2 ^ 53) : pyFloatMul100Round d = 100 * d :=
  roundTo53_small (100 * d) (by omega) h

/-- Counterexample to claim C6 as stated: the claim covers every bare
number, but at the bare rent input 360287970189641 the program computes
round(float(s) * 100) in binary64 floating point, where the true product
36028797018964100 lies exactly halfway between the representable
neighbours 36028797018964096 and 36028797018964104 (unit in the last place
8 just above 2 ^ 55); ties-to-even selects 36028797018964096, so the
returned cents differ from round(dollars times 100) = 36028797018964100. -/
theorem rent_float_rounding_diverges :
    pyFloatMul100Round 360287970189641 = 36028797018964096 ∧
    pyFloatMul100Round 360287970189641 ≠ 100 * 360287970189641 := by
  constructor
  · decide
  · decide

/-- Claim C6 (corrected): for every rent input of the shapes $D,DDD.CC,
D,DDD, DDDD/mo or a bare number whose cent value stays below 2 ^ 53 — in
particular every realistic rent — the normalizer returns integer cents
equal to round(dollars times 100), which for these shapes is exactly 100
times the dollar amount plus the cents, and on that envelope the binary64
float computation agrees with the exact value (fifth conjunct); in
particular $1,500.00 normalizes to 150000 and 2,250/mo normalizes to
225000.  For a bare number with 100 * d at or above 2 ^ 53 the float
product is itself rounded ties-to-even and the program can return cents
different from round(dollars times 100) (see
rent_float_rounding_diverges). -/
theorem rent_normalization_rounds_to_cents :
    (∀ d c : Nat, 1000 ≤ d → d ≤ 9999 → c < 100 →
      normalize_rent (rentShapeDollar d c) = some ((100 * d + c : Nat) : Int)) ∧
    (∀ d : Nat, 1000 ≤ d → d ≤ 9999 →
      normalize_rent (rentShapeComma d) = some ((100 * d : Nat) : Int)) ∧
    (∀ d : Nat, 1 ≤ d → 100 * d < 2 ^ 53 →
      normalize_rent (rentShapePerMo d) = some ((100 * d : Nat) : Int)) ∧
    (∀ d : Nat, 1 ≤ d → 100 * d < 2 ^ 53 →
      normalize_rent (rentShapeBare d) = some ((100 * d : Nat) : Int)) ∧
    (∀ d : Nat, 0 < d → 100 * d < 2 ^ 53 →
      pyFloatMul100Round d = 100 * d) ∧
    normalize_rent ("$1,500.00".toList) = some 150000 ∧
    normalize_rent ("2,250/mo".toList) = some 225000 :=
  ⟨normalize_rent_dollar, normalize_rent_comma,
    fun d h1 _ => normalize_rent_permo d h1,
    fun d h1 _ => normalize_rent_bare d h1,
    fun d h0 h => pyFloatMul100Round_exact d h0 h,
    by decide, by decide⟩

theorem rent_normalization_rounds_to_cents_witness :
    normalize_rent (rentShapeDollar 1500 0) = some ((100 * 1500 + 0 : Nat) : Int) ∧
    rentShapeDollar 1500 0 = "$1,500.00".toList ∧
    normalize_rent (rentShapeBare 789) = some ((100 * 789 : Nat) : Int) ∧
    pyFloatMul100Round 789 = 100 * 789 :=
  ⟨rent_normalization_rounds_to_cents.1 1500 0 (by norm_num) (by norm_num) (by norm_num),
   by decide,
   rent_normalization_rounds_to_cents.2.2.2.1 789 (by norm_num) (by norm_num),
   rent_normalization_rounds_to_cents.2.2.2.2.1 789 (by norm_num) (by norm_num)⟩

end Moxie
